import Mathlib

/-!
Shallow embedding of the RFID PCD transmitter of dmigwi/rfid-based-auth.

The embedded code is `src/rfid-plus-display/transmitter.cpp` (together with
the constants it uses from `src/rfid-plus-display/transmitter.h` and
`src/commonRFID/commonRFID.h`), plus the earlier revision of the key
derivation routine found in `src/unnamed/part_008` (`setPICCAuthKey`).

Bytes are modelled as `Nat` (all source values stay below 256; the two
places the C++ code narrows with a byte cast are modelled with an explicit
`% 256`).  The MFRC522 reader, the Serial1 link and the card are modelled
by an oracle `HW` of response streams indexed by call number, and every
hardware or serial interaction is recorded as an `Event` in an append-only
trace, so that temporal claims (stage ordering, cleanup counts, frames
sent) are statements about the trace.  The compile-time `IS_TRUST_ORG`
switch is modelled as an explicit `Bool` parameter threaded exactly where
the `#ifdef` appears in the source.
-/

/-- Status codes of the MFRC522 library (the subset the transmitter code
distinguishes is `STATUS_OK` versus everything else). -/
inductive StatusCode where
  | STATUS_OK
  | STATUS_ERROR
  | STATUS_COLLISION
  | STATUS_TIMEOUT
  | STATUS_NO_ROOM
  | STATUS_INTERNAL_ERROR
  | STATUS_INVALID
  | STATUS_CRC_WRONG
  | STATUS_MIFARE_NACK
  deriving DecidableEq, Repr

/-- Machine states of the device, from `Transmitter::MachineState` in
transmitter.h. -/
inductive MachineState where
  | BootUp
  | Loading
  | StandBy
  | ReadTag
  | Network
  | WriteTag
  | Unknown
  deriving DecidableEq, Repr

/-- Observable side effects of one card-handling cycle: reader commands,
serial traffic and display status updates, in program order. -/
inductive Event where
  | auth (addr : Nat)
  | readBlock (addr : Nat)
  | writeBlock (addr : Nat)
  | reselect (ok : Bool)
  | serialFlush
  | serialSend (frame : List Nat)
  | serialRecv (count : Nat)
  | irqReset
  | halt
  | stopCrypto
  | statusMsg (st : MachineState)
  deriving DecidableEq, Repr

/-- MFRC522::MF_KEY_SIZE. -/
def MF_KEY_SIZE : Nat := 6

/-- CommonRFID::blockSize: bytes in one MIFARE block. -/
def blockSize : Nat := 16

/-- CommonRFID::TrustKeySize: bytes of the trust-key payload (3 blocks). -/
def TrustKeySize : Nat := 48

/-- CommonRFID::SecretKeyAuthDataSize: bytes of the secret-key request frame. -/
def SecretKeyAuthDataSize : Nat := 35

/-- CommonRFID::TrustKeyAuthDataSize: bytes of the trust-key validation frame. -/
def TrustKeyAuthDataSize : Nat := 67

/-- Settings::maxBlockNo: the last block address considered. -/
def maxBlockNo : Nat := 63

/-- Settings::sectorBlocks: blocks per sector of a MIFARE Classic tag. -/
def sectorBlocks : Nat := 4

/-- blocksToRead as computed in readPICC/writePICC:
`Settings::TrustKeySize / Settings::blockSize`. -/
def blocksToRead : Nat := TrustKeySize / blockSize

/-- Settings::KeyA, the hardcoded default key (DA 91 E7 A4 3B 42). -/
def KeyA : List Nat := [0xDA, 0x91, 0xE7, 0xA4, 0x3B, 0x42]

/-- Settings::DEVICE_ID from transmitter.h (8 bytes). -/
def DEVICE_ID : List Nat := [0xef, 0x12, 0x34, 0x56, 0xab, 0xcd, 0xef, 0x12]

/-- Settings::AccessBits (trust-organization mode): per-block access
configuration written into the sector trailer. -/
def AccessBits : List Nat := [0x4B, 0x44, 0xBB]

/-- Settings::defaultPICCKeyAs (trust-organization mode): the fixed list of
factory-default KeyA candidates. -/
def defaultPICCKeyAs : List (List Nat) :=
  [[0xff, 0xff, 0xff, 0xff, 0xff, 0xff],
   [0xd3, 0xf7, 0xd3, 0xf7, 0xd3, 0xf7],
   [0xa0, 0xa1, 0xa2, 0xa3, 0xa4, 0xa5],
   [0xb0, 0xb1, 0xb2, 0xb3, 0xb4, 0xb5],
   [0x4d, 0x3a, 0x99, 0xc3, 0x51, 0xdd],
   [0x1a, 0x98, 0x2c, 0x7e, 0x45, 0x9a],
   [0xaa, 0xbb, 0xcc, 0xdd, 0xee, 0xff],
   [0x00, 0x00, 0x00, 0x00, 0x00, 0x00],
   [0xab, 0xcd, 0xef, 0x12, 0x34, 0x56]]

/-- Reading `n` bytes starting at a C buffer: byte `i` of the result is
byte `i` of the list, or 0 past its end (buffers here are always
materialized at their declared length, so the default is never read in a
well-formed state). -/
def bufBytes (l : List Nat) (n : Nat) : List Nat :=
  (List.range n).map (fun i => l.getD i 0)

/-- memcpy of `src` into `dest` at byte offset `off`, keeping `dest`'s
length (the C buffers never grow). -/
def bufWrite (dest : List Nat) (off : Nat) (src : List Nat) : List Nat :=
  (List.range dest.length).map
    (fun i => if off ≤ i ∧ i < off + src.length then src.getD (i - off) 0 else dest.getD i 0)

/-- MFRC522::Uid: the detected tag's serial number; `uidByte` is the
10-byte buffer, of which the first `size` (4, 7 or 10) bytes are valid. -/
structure Uid where
  size : Nat
  uidByte : List Nat
  deriving DecidableEq, Repr

/-- Transmitter::BlockAuth from transmitter.h. -/
structure BlockAuth where
  block0Addr : Nat
  isCardNew : Bool
  status : StatusCode
  authKeyA : List Nat
  block2Data : List Nat
  deriving DecidableEq, Repr

/-- Transmitter::UserData from transmitter.h. -/
structure UserData where
  status : StatusCode
  readData : List Nat
  deriving DecidableEq, Repr

/-- Oracle for the card, reader and serial link: the n-th call of each
primitive gets the n-th response of its stream.  Quantifying theorems over
`HW` covers every possible behaviour of the card and of the network
bridge. -/
structure HW where
  authResp : Nat → StatusCode
  readResp : Nat → StatusCode × List Nat
  writeResp : Nat → StatusCode
  cardResp : Nat → Bool
  serialResp : Nat → List Nat

/-- The transmitter's mutable state: the selected card's uid, the member
fields `m_blockAuth`, `m_cardData`, `m_PiccKeyB`, per-primitive call
counters (indices into the `HW` streams) and the event trace. -/
structure TState where
  uid : Uid
  blockAuth : BlockAuth
  cardData : UserData
  piccKeyB : List Nat
  nAuth : Nat
  nRead : Nat
  nWrite : Nat
  nCard : Nat
  nSerial : Nat
  events : List Event

/-- m_rc522.PCD_Authenticate: one authentication attempt at a block
address; the outcome comes from the oracle stream. -/
def pcdAuthenticate (hw : HW) (addr : Nat) (s : TState) : StatusCode × TState :=
  (hw.authResp s.nAuth,
    { s with nAuth := s.nAuth + 1, events := s.events ++ [Event.auth addr] })

/-- m_rc522.MIFARE_Read: one 16(+2)-byte block read. -/
def mifareRead (hw : HW) (addr : Nat) (s : TState) : StatusCode × List Nat × TState :=
  ((hw.readResp s.nRead).1, (hw.readResp s.nRead).2,
    { s with nRead := s.nRead + 1, events := s.events ++ [Event.readBlock addr] })

/-- m_rc522.MIFARE_Write: one 16-byte block write. -/
def mifareWrite (hw : HW) (addr : Nat) (_data : List Nat) (s : TState) : StatusCode × TState :=
  (hw.writeResp s.nWrite,
    { s with nWrite := s.nWrite + 1, events := s.events ++ [Event.writeBlock addr] })

/-- Transmitter::isNewCardDetected:
`PICC_IsNewCardPresent() && PICC_ReadCardSerial()`, used both for the
initial detection and for reselecting the tag after a failure. -/
def isNewCardDetectedOp (hw : HW) (s : TState) : Bool × TState :=
  (hw.cardResp s.nCard,
    { s with nCard := s.nCard + 1, events := s.events ++ [Event.reselect (hw.cardResp s.nCard)] })

/-- The `while(Serial1.available() > 0) Serial1.read();` drain loop. -/
def serialFlushOp (s : TState) : TState :=
  { s with events := s.events ++ [Event.serialFlush] }

/-- Serial1.write of a full frame. -/
def serialWriteOp (frame : List Nat) (s : TState) : TState :=
  { s with events := s.events ++ [Event.serialSend frame] }

/-- Serial1.readBytes with request size `len`: delivers at most `len`
bytes (fewer on timeout), taken from the oracle stream. -/
def serialReadBytesOp (hw : HW) (len : Nat) (s : TState) : List Nat × TState :=
  ((hw.serialResp s.nSerial).take len,
    { s with nSerial := s.nSerial + 1,
             events := s.events ++ [Event.serialRecv ((hw.serialResp s.nSerial).take len).length] })

/-- Display::setStatusMsg: only the state transition it signals is
retained (display rendering is out of scope). -/
def setStatusMsgOp (st : MachineState) (s : TState) : TState :=
  { s with events := s.events ++ [Event.statusMsg st] }

/-- The 6-byte `TagUid` buffer built inside `Transmitter::setPICCAuthKeyB`:
six zero bytes, the first `min(uid.size, MF_KEY_SIZE)` of which are copied
from the uid buffer. -/
def tagUidBuf (uid : Uid) : List Nat :=
  (List.range MF_KEY_SIZE).map
    (fun i => if i < min uid.size MF_KEY_SIZE then uid.uidByte.getD i 0 else 0)

/-- Transmitter::setPICCAuthKeyB (transmitter.cpp lines 199-213):
`KeyB[i] = secretKey[i] ^ KeyA[i] ^ TagUid[i]`. -/
def setPICCAuthKeyB (uid : Uid) (secretKey : List Nat) : List Nat :=
  (List.range MF_KEY_SIZE).map
    (fun i => Nat.xor (Nat.xor (secretKey.getD i 0) (KeyA.getD i 0)) ((tagUidBuf uid).getD i 0))

/-- Transmitter::setPICCAuthKey of the earlier revision in
src/unnamed/part_008 (lines 177-184):
`m_PiccUidKey[i] = initKey[i] ^ uid.uidByte[i]` for the six key bytes.
The seed `Settings::initKey` and the uid buffer are the function's
implicit inputs and appear here as parameters. -/
def setPICCAuthKey (initKey : List Nat) (uidByte : List Nat) : List Nat :=
  (List.range MF_KEY_SIZE).map
    (fun i => Nat.xor (initKey.getD i 0) (uidByte.getD i 0))

/-- Written from the spec's words, for comparison with `setPICCAuthKeyB`
(spec 4.1): the tag id truncated to its first 6 bytes and zero-padded when
shorter than 6 bytes. -/
def zeroPadTagId (tagId : List Nat) : List Nat :=
  tagId.take MF_KEY_SIZE ++ List.replicate (MF_KEY_SIZE - tagId.length) 0

/-- Written from the spec's words, for comparison with `setPICCAuthKeyB`
(spec 4.1): `deriveKeyB(serverSecret, keyA, tagId)` is the three-way
byte-wise XOR of serverSecret, keyA and the zero-padded tagId. -/
def specDeriveKeyB (serverSecret keyA tagId : List Nat) : List Nat :=
  (List.range MF_KEY_SIZE).map
    (fun i => Nat.xor (Nat.xor (serverSecret.getD i 0) (keyA.getD i 0))
      ((zeroPadTagId tagId).getD i 0))

/-- The 35-byte `dataSent` packaging of readPICC (transmitter.cpp lines
321-326): uid size, then the 10 uid buffer bytes, then the 8 device-id
buffer bytes, then the 16 block 2 data bytes. -/
def secretFrame (uid : Uid) (deviceIdBuff : List Nat) (block2Data : List Nat) : List Nat :=
  uid.size :: (bufBytes uid.uidByte 10 ++ bufBytes deviceIdBuff 8 ++ bufBytes block2Data blockSize)

/-- The 67-byte `txData` packaging of networkConn (transmitter.cpp lines
431-435): uid size, then the 10 uid buffer bytes, then the 8
`Settings::DEVICE_ID` bytes, then the 48 trust-key bytes. -/
def trustFrame (uid : Uid) (readData : List Nat) : List Nat :=
  uid.size :: (bufBytes uid.uidByte 10 ++ bufBytes DEVICE_ID 8 ++ bufBytes readData TrustKeySize)

/-- The block 2 addresses the `for` loop of `attemptBlock2Auth` walks:
`block2Addr = 6; block2Addr <= maxBlockNo; block2Addr += sectorBlocks`,
so 6, 10, ..., 62. -/
def block2AddrList : List Nat := (List.range 15).map (fun k => 6 + 4 * k)

/-- The body of the `for` loop of `Transmitter::attemptBlock2Auth`
(transmitter.cpp lines 231-257), as structural recursion over the
remaining block 2 addresses.  `auth` is the `BlockAuth&` being filled in,
`buffer` the local 18-byte read buffer. -/
def attemptBlock2AuthLoop (hw : HW) (key : List Nat) :
    List Nat → BlockAuth → List Nat → TState → BlockAuth × List Nat × TState
  | [], auth, buffer, s => (auth, buffer, s)
  | addr :: rest, auth, buffer, s =>
    let a := pcdAuthenticate hw addr s
    if a.1 = StatusCode.STATUS_OK then
      let auth1 := { auth with status := a.1, block0Addr := addr - 2 }
      let r := mifareRead hw addr a.2
      let auth2 := { auth1 with status := r.1 }
      if r.1 = StatusCode.STATUS_OK then
        (auth2, r.2.1, r.2.2)
      else
        let d := isNewCardDetectedOp hw r.2.2
        attemptBlock2AuthLoop hw key rest auth2 buffer d.2
    else
      let auth1 := { auth with status := a.1 }
      let d := isNewCardDetectedOp hw a.2
      if d.1 then attemptBlock2AuthLoop hw key rest auth1 buffer d.2
      else (auth1, buffer, d.2)

/-- Transmitter::attemptBlock2Auth (transmitter.cpp lines 219-271): walk
the block 2 addresses with the candidate `key`; on overall success deep
copy the key, classify the card as new when the key differs from the
default `Settings::KeyA`, and keep the 16 data bytes read from block 2. -/
def attemptBlock2Auth (hw : HW) (key : List Nat) (s : TState) : TState :=
  let start := { s.blockAuth with status := StatusCode.STATUS_ERROR }
  let r := attemptBlock2AuthLoop hw key block2AddrList start (List.replicate 18 0) s
  if r.1.status = StatusCode.STATUS_OK then
    { r.2.2 with blockAuth :=
        { r.1 with
            authKeyA := bufBytes key MF_KEY_SIZE,
            isCardNew := decide (bufBytes key MF_KEY_SIZE ≠ bufBytes KeyA MF_KEY_SIZE),
            block2Data := bufBytes r.2.1 blockSize } }
  else
    { r.2.2 with blockAuth := r.1 }

/-- The trust-organization-only fallback loop in readPICC (transmitter.cpp
lines 292-304): try each factory-default KeyA until one authenticates. -/
def tryDefaultKeys (hw : HW) : List (List Nat) → TState → TState
  | [], s => s
  | k :: rest, s =>
    let s1 := attemptBlock2Auth hw k s
    if s1.blockAuth.status = StatusCode.STATUS_OK then s1
    else tryDefaultKeys hw rest s1

/-- The stage-4 read loop of `Transmitter::readPICC` (transmitter.cpp
lines 382-408), threading the loop-carried `m_cardData.status` and
`m_cardData.readData` explicitly.  The fuel argument only bounds the
recursion; the loop guard `addr < maxBlockNo` makes any fuel of at least
`maxBlockNo - addr` equivalent. -/
def readLoop (hw : HW) (key : List Nat) :
    Nat → Nat → Nat → StatusCode → List Nat → TState → StatusCode × List Nat × TState
  | 0, _, _, st, rd, s => (st, rd, s)
  | fuel + 1, startBlock, addr, st, rd, s =>
    if startBlock < blocksToRead ∧ addr < maxBlockNo then
      if (addr + 1) % sectorBlocks = 0 then
        readLoop hw key fuel startBlock (addr + 1) st rd s
      else
        let a := pcdAuthenticate hw addr s
        if a.1 ≠ StatusCode.STATUS_OK then (a.1, rd, a.2)
        else
          let r := mifareRead hw addr a.2
          if r.1 ≠ StatusCode.STATUS_OK then (r.1, rd, r.2.2)
          else
            readLoop hw key fuel (startBlock + 1) (addr + 1) r.1
              (bufWrite rd (startBlock * blockSize) (bufBytes r.2.1 blockSize)) r.2.2
    else (st, rd, s)

/-- Stages 1-2 of Transmitter::readPICC (transmitter.cpp lines 276-304):
reset both status fields to error, announce the ReadTag state, run the
block 2 authentication with the main `Settings::KeyA`, and -- in
trust-organization mode only -- fall back to the factory-default key
list. -/
def readPICCAuthStage (hw : HW) (isTrustOrg : Bool) (s0 : TState) : TState :=
  let s1 := { s0 with
                cardData := { s0.cardData with status := StatusCode.STATUS_ERROR },
                blockAuth := { s0.blockAuth with status := StatusCode.STATUS_ERROR } }
  let s2 := setStatusMsgOp MachineState.ReadTag s1
  let s3 := attemptBlock2Auth hw KeyA s2
  if isTrustOrg ∧ s3.blockAuth.status ≠ StatusCode.STATUS_OK then
    tryDefaultKeys hw defaultPICCKeyAs s3
  else s3

/-- Transmitter::readPICC (transmitter.cpp lines 274-414).  The
`isTrustOrg` flag stands for the `IS_TRUST_ORG` compile-time switch. -/
def readPICC (hw : HW) (isTrustOrg : Bool) (s0 : TState) : TState :=
  let s4 := readPICCAuthStage hw isTrustOrg s0
  if s4.blockAuth.status ≠ StatusCode.STATUS_OK then s4
  else
    let deviceIdBuff := if isTrustOrg then DEVICE_ID else List.replicate 8 0
    let dataSent := secretFrame s4.uid deviceIdBuff s4.blockAuth.block2Data
    let s5 := serialWriteOp dataSent (serialFlushOp s4)
    let p := serialReadBytesOp hw MF_KEY_SIZE s5
    if p.1.length ≠ MF_KEY_SIZE then p.2
    else
      let s6 := { p.2 with piccKeyB := setPICCAuthKeyB p.2.uid (bufBytes p.1 MF_KEY_SIZE) }
      if (s6.blockAuth.block0Addr + blocksToRead) % 256 ≤ maxBlockNo then
        let key := if s6.blockAuth.isCardNew then s6.blockAuth.authKeyA else s6.piccKeyB
        let r := readLoop hw key 64 0 s6.blockAuth.block0Addr
                   s6.cardData.status s6.cardData.readData s6
        { r.2.2 with cardData := { status := r.1, readData := r.2.1 } }
      else s6

/-- Transmitter::networkConn (transmitter.cpp lines 419-480). -/
def networkConn (hw : HW) (s0 : TState) : TState :=
  let s1 := { s0 with cardData := { s0.cardData with status := StatusCode.STATUS_ERROR } }
  let s2 := setStatusMsgOp MachineState.Network s1
  let txData := trustFrame s2.uid s2.cardData.readData
  let s3 := serialWriteOp txData (serialFlushOp s2)
  let p := serialReadBytesOp hw TrustKeySize s3
  let rxData := bufWrite txData 0 p.1
  if p.1.length = TrustKeySize then
    if bufBytes (rxData.drop 40) 8 = bufBytes DEVICE_ID 8 then
      { p.2 with cardData := { status := StatusCode.STATUS_OK,
                               readData := bufBytes rxData TrustKeySize } }
    else p.2
  else p.2

/-- The write loop of `Transmitter::writePICC` (transmitter.cpp lines
498-512), threading the loop-carried `m_cardData.status`.  `rd` is the
`m_cardData.readData` buffer being written back. -/
def writeLoop (hw : HW) (rd : List Nat) :
    Nat → Nat → Nat → StatusCode → TState → StatusCode × TState
  | 0, _, _, st, s => (st, s)
  | fuel + 1, startBlock, addr, st, s =>
    if startBlock < blocksToRead ∧ addr < maxBlockNo then
      if (addr + 1) % sectorBlocks = 0 then
        writeLoop hw rd fuel startBlock (addr + 1) st s
      else
        let buffer := bufBytes (rd.drop (startBlock * blockSize)) blockSize
        let w := mifareWrite hw addr buffer s
        if w.1 ≠ StatusCode.STATUS_OK then (w.1, w.2)
        else writeLoop hw rd fuel (startBlock + 1) (addr + 1) w.1 w.2
    else (st, s)

/-- Transmitter::writePICC (transmitter.cpp lines 483-518). -/
def writePICC (hw : HW) (s0 : TState) : TState :=
  let s1 := setStatusMsgOp MachineState.WriteTag s0
  let r := writeLoop hw s1.cardData.readData 64 0 s1.blockAuth.block0Addr
             s1.cardData.status s1
  { r.2 with cardData := { r.2.cardData with status := r.1 } }

/-- Transmitter::cleanUpAfterCardOps (transmitter.cpp lines 523-538):
acknowledge the interrupt, halt the PICC and stop the crypto session. -/
def cleanUpAfterCardOps (s : TState) : TState :=
  { s with events := s.events ++ [Event.irqReset, Event.halt, Event.stopCrypto] }

/-- Transmitter::setUidBasedKey (transmitter.cpp lines 574-639): in
trust-organization mode, for a card classified as new, rewrite the sector
trailer with the upgraded key configuration; otherwise return
`STATUS_ERROR` without touching the card. -/
def setUidBasedKey (hw : HW) (isTrustOrg : Bool) (s : TState) : StatusCode × TState :=
  if isTrustOrg ∧ s.blockAuth.isCardNew then
    let keyBuffer := bufBytes KeyA MF_KEY_SIZE ++ bufBytes AccessBits 3 ++ [0x00] ++
      bufBytes s.piccKeyB MF_KEY_SIZE
    let sectorTrailer := (s.blockAuth.block0Addr + sectorBlocks - 1) % 256
    let a := pcdAuthenticate hw sectorTrailer s
    if a.1 = StatusCode.STATUS_OK then mifareWrite hw sectorTrailer keyBuffer a.2
    else (a.1, a.2)
  else (StatusCode.STATUS_ERROR, s)

/-- Transmitter::handleDetectedCard (transmitter.cpp lines 543-569): the
full detection cycle with its stage gating and unconditional cleanup. -/
def handleDetectedCard (hw : HW) (isTrustOrg : Bool) (s0 : TState) : TState :=
  let d := isNewCardDetectedOp hw s0
  let s1 :=
    if d.1 then
      let sR := readPICC hw isTrustOrg d.2
      let sN := if sR.cardData.status = StatusCode.STATUS_OK then networkConn hw sR else sR
      let sW := if sN.cardData.status = StatusCode.STATUS_OK then writePICC hw sN else sN
      let sU :=
        if isTrustOrg then
          if sW.cardData.status = StatusCode.STATUS_OK then
            let u := setUidBasedKey hw isTrustOrg sW
            { u.2 with cardData := { u.2.cardData with status := u.1 } }
          else sW
        else sW
      cleanUpAfterCardOps sU
    else d.2
  setStatusMsgOp MachineState.StandBy s1

/-- The data-block addresses the stage-4 read loop and the write loop
walk: from `addr`, while fewer than `blocksToRead` blocks are taken and
`addr < maxBlockNo`, skipping every sector-trailer address
(`(addr+1) % sectorBlocks == 0`). -/
def dataBlockAddrsAux : Nat → Nat → Nat → List Nat
  | 0, _, _ => []
  | fuel + 1, startBlock, addr =>
    if startBlock < blocksToRead ∧ addr < maxBlockNo then
      if (addr + 1) % sectorBlocks = 0 then dataBlockAddrsAux fuel startBlock (addr + 1)
      else addr :: dataBlockAddrsAux fuel (startBlock + 1) (addr + 1)
    else []

/-- The data-block addresses of one cycle, starting from the sector's
base data block address. -/
def dataBlockAddrs (block0Addr : Nat) : List Nat := dataBlockAddrsAux 64 0 block0Addr

/-- Addresses of the `auth` events of a trace. -/
def authAddrs (t : List Event) : List Nat :=
  t.filterMap (fun e => match e with | Event.auth a => some a | _ => none)

/-- Addresses of the `readBlock` events of a trace. -/
def readAddrs (t : List Event) : List Nat :=
  t.filterMap (fun e => match e with | Event.readBlock a => some a | _ => none)

/-- Addresses of the `writeBlock` events of a trace. -/
def writeAddrs (t : List Event) : List Nat :=
  t.filterMap (fun e => match e with | Event.writeBlock a => some a | _ => none)

/-- Number of `halt` events (PICC_HaltA calls) in a trace: the cleanup
routine is the only emitter, so this counts cleanup runs. -/
def countHalt (t : List Event) : Nat :=
  t.countP (fun e => decide (e = Event.halt))

/-- A concrete oracle on which every operation succeeds: the serial stream
always answers with 40 zero bytes followed by the device id (a valid
6-byte secret-key prefix and a valid 48-byte trust-key response). -/
def hwOk : HW :=
  { authResp := fun _ => StatusCode.STATUS_OK,
    readResp := fun _ => (StatusCode.STATUS_OK, List.replicate 18 7),
    writeResp := fun _ => StatusCode.STATUS_OK,
    cardResp := fun _ => true,
    serialResp := fun _ => List.replicate 40 0 ++ DEVICE_ID }

/-- The kinds of events readPICC can append after its initial ReadTag
status update: reader commands of its two stages and the serial exchange
of the 35-byte secret-key request. -/
def ReadPICCEv (s : TState) (torg : Bool) (e : Event) : Prop :=
  (∃ a, e = Event.auth a) ∨ (∃ a, e = Event.readBlock a) ∨ (∃ b, e = Event.reselect b) ∨
  e = Event.serialFlush ∨ (∃ n, e = Event.serialRecv n) ∨
  (∃ b2, e = Event.serialSend
    (secretFrame s.uid (if torg then DEVICE_ID else List.replicate 8 0) b2))

/-- A concrete initial transmitter state with a 4-byte uid. -/
def st0 : TState :=
  { uid := { size := 4, uidByte := [1, 2, 3, 4, 0, 0, 0, 0, 0, 0] },
    blockAuth := { block0Addr := 0, isCardNew := false, status := StatusCode.STATUS_ERROR,
                   authKeyA := List.replicate 6 0, block2Data := List.replicate 16 0 },
    cardData := { status := StatusCode.STATUS_ERROR, readData := List.replicate 48 0 },
    piccKeyB := List.replicate 6 0,
    nAuth := 0, nRead := 0, nWrite := 0, nCard := 0, nSerial := 0,
    events := [] }

/-! ### Trace characterization of the embedded operations -/

theorem authAddrs_nil : authAddrs [] = [] := rfl

theorem authAddrs_append (t u : List Event) :
    authAddrs (t ++ u) = authAddrs t ++ authAddrs u := by
  simp [authAddrs]

theorem readAddrs_append (t u : List Event) :
    readAddrs (t ++ u) = readAddrs t ++ readAddrs u := by
  simp [readAddrs]

theorem writeAddrs_append (t u : List Event) :
    writeAddrs (t ++ u) = writeAddrs t ++ writeAddrs u := by
  simp [writeAddrs]

theorem countHalt_append (t u : List Event) :
    countHalt (t ++ u) = countHalt t + countHalt u := by
  simp [countHalt, List.countP_append]

/-- The auth loop leaves every state field except the reader counters and
the trace unchanged, and the trace grows by reader events only, whose
authentication attempts walk an initial segment of the given address
list. -/
theorem attemptBlock2AuthLoop_spec (hw : HW) (key : List Nat) (l : List Nat) :
    ∀ (auth : BlockAuth) (buf : List Nat) (s : TState),
    (attemptBlock2AuthLoop hw key l auth buf s).2.2.uid = s.uid ∧
    (attemptBlock2AuthLoop hw key l auth buf s).2.2.cardData = s.cardData ∧
    (attemptBlock2AuthLoop hw key l auth buf s).2.2.piccKeyB = s.piccKeyB ∧
    (attemptBlock2AuthLoop hw key l auth buf s).2.2.nSerial = s.nSerial ∧
    ∃ t, (attemptBlock2AuthLoop hw key l auth buf s).2.2.events = s.events ++ t ∧
      (∀ e ∈ t, (∃ a, e = Event.auth a) ∨ (∃ a, e = Event.readBlock a) ∨
        (∃ b, e = Event.reselect b)) ∧
      ∃ k, authAddrs t = l.take k := by
  induction l with
  | nil =>
    intro auth buf s
    refine ⟨rfl, rfl, rfl, rfl, [], by simp [attemptBlock2AuthLoop], by simp, 0, rfl⟩
  | cons addr rest ih =>
    intro auth buf s
    simp only [attemptBlock2AuthLoop, pcdAuthenticate, mifareRead, isNewCardDetectedOp]
    split
    · -- authentication succeeded at this address
      split
      · -- block 2 read succeeded: loop breaks here
        refine ⟨rfl, rfl, rfl, rfl, [Event.auth addr, Event.readBlock addr], by simp, ?_, 1, ?_⟩
        · intro e he
          simp only [List.mem_cons, List.not_mem_nil, or_false] at he
          rcases he with h | h
          · exact Or.inl ⟨addr, h⟩
          · exact Or.inr (Or.inl ⟨addr, h⟩)
        · simp [authAddrs]
      · -- read failed: reactivate and move to the next stride
        obtain ⟨h1, h2, h3, h4, t, ht, hall, k, hk⟩ := ih _ buf _
        refine ⟨h1, h2, h3, h4, [Event.auth addr, Event.readBlock addr,
          Event.reselect (hw.cardResp s.nCard)] ++ t, ?_, ?_, k + 1, ?_⟩
        · rw [ht]; simp
        · intro e he
          rcases List.mem_append.mp he with h | h
          · simp only [List.mem_cons, List.not_mem_nil, or_false] at h
            rcases h with h | h | h
            · exact Or.inl ⟨addr, h⟩
            · exact Or.inr (Or.inl ⟨addr, h⟩)
            · exact Or.inr (Or.inr ⟨hw.cardResp s.nCard, h⟩)
          · exact hall e h
        · rw [authAddrs_append, hk]
          simp [authAddrs, List.take_succ_cons]
    · -- authentication failed: reselect, then either continue or abort
      split
      · -- reselection succeeded: next stride
        obtain ⟨h1, h2, h3, h4, t, ht, hall, k, hk⟩ := ih _ buf _
        refine ⟨h1, h2, h3, h4, [Event.auth addr,
          Event.reselect (hw.cardResp s.nCard)] ++ t, ?_, ?_, k + 1, ?_⟩
        · rw [ht]; simp
        · intro e he
          rcases List.mem_append.mp he with h | h
          · simp only [List.mem_cons, List.not_mem_nil, or_false] at h
            rcases h with h | h
            · exact Or.inl ⟨addr, h⟩
            · exact Or.inr (Or.inr ⟨hw.cardResp s.nCard, h⟩)
          · exact hall e h
        · rw [authAddrs_append, hk]
          simp [authAddrs, List.take_succ_cons]
      · -- reselection failed: abort immediately
        refine ⟨rfl, rfl, rfl, rfl, [Event.auth addr,
          Event.reselect (hw.cardResp s.nCard)], by simp, ?_, 1, ?_⟩
        · intro e he
          simp only [List.mem_cons, List.not_mem_nil, or_false] at he
          rcases he with h | h
          · exact Or.inl ⟨addr, h⟩
          · exact Or.inr (Or.inr ⟨hw.cardResp s.nCard, h⟩)
        · simp [authAddrs]

/-- attemptBlock2Auth only updates `m_blockAuth`, the reader counters and
the trace; its authentication attempts walk an initial segment of
`block2AddrList`. -/
theorem attemptBlock2Auth_spec (hw : HW) (key : List Nat) (s : TState) :
    (attemptBlock2Auth hw key s).uid = s.uid ∧
    (attemptBlock2Auth hw key s).cardData = s.cardData ∧
    (attemptBlock2Auth hw key s).piccKeyB = s.piccKeyB ∧
    (attemptBlock2Auth hw key s).nSerial = s.nSerial ∧
    ∃ t, (attemptBlock2Auth hw key s).events = s.events ++ t ∧
      (∀ e ∈ t, (∃ a, e = Event.auth a) ∨ (∃ a, e = Event.readBlock a) ∨
        (∃ b, e = Event.reselect b)) ∧
      ∃ k, authAddrs t = block2AddrList.take k := by
  obtain ⟨h1, h2, h3, h4, t, ht, hall, k, hk⟩ :=
    attemptBlock2AuthLoop_spec hw key block2AddrList
      { s.blockAuth with status := StatusCode.STATUS_ERROR } (List.replicate 18 0) s
  simp only [attemptBlock2Auth]
  split <;> exact ⟨h1, h2, h3, h4, t, ht, hall, k, hk⟩

/-- The trust-organization default-key walk preserves everything except
`m_blockAuth`, the reader counters and the trace, and appends reader
events only. -/
theorem tryDefaultKeys_spec (hw : HW) (keys : List (List Nat)) :
    ∀ s : TState,
    (tryDefaultKeys hw keys s).uid = s.uid ∧
    (tryDefaultKeys hw keys s).cardData = s.cardData ∧
    (tryDefaultKeys hw keys s).piccKeyB = s.piccKeyB ∧
    (tryDefaultKeys hw keys s).nSerial = s.nSerial ∧
    ∃ t, (tryDefaultKeys hw keys s).events = s.events ++ t ∧
      ∀ e ∈ t, (∃ a, e = Event.auth a) ∨ (∃ a, e = Event.readBlock a) ∨
        (∃ b, e = Event.reselect b) := by
  induction keys with
  | nil => intro s; exact ⟨rfl, rfl, rfl, rfl, [], by simp [tryDefaultKeys], by simp⟩
  | cons k rest ih =>
    intro s
    obtain ⟨h1, h2, h3, h4, t, ht, hall, _, _⟩ := attemptBlock2Auth_spec hw k s
    simp only [tryDefaultKeys]
    split
    · exact ⟨h1, h2, h3, h4, t, ht, hall⟩
    · obtain ⟨g1, g2, g3, g4, u, hu, hallu⟩ := ih (attemptBlock2Auth hw k s)
      refine ⟨g1.trans h1, g2.trans h2, g3.trans h3, g4.trans h4, t ++ u, ?_, ?_⟩
      · rw [hu, ht, List.append_assoc]
      · intro e he
        rcases List.mem_append.mp he with h | h
        · exact hall e h
        · exact hallu e h

/-- The stage-4 read loop touches only `m_cardData` (through its threaded
status and buffer), the reader counters and the trace; the blocks it
authenticates and reads lie on the data-block address walk, and the reads
are an initial segment of it. -/
theorem readLoop_spec (hw : HW) (key : List Nat) :
    ∀ (fuel startBlock addr : Nat) (st : StatusCode) (rd : List Nat) (s : TState),
    (readLoop hw key fuel startBlock addr st rd s).2.2.uid = s.uid ∧
    (readLoop hw key fuel startBlock addr st rd s).2.2.blockAuth = s.blockAuth ∧
    (readLoop hw key fuel startBlock addr st rd s).2.2.cardData = s.cardData ∧
    (readLoop hw key fuel startBlock addr st rd s).2.2.piccKeyB = s.piccKeyB ∧
    (readLoop hw key fuel startBlock addr st rd s).2.2.nSerial = s.nSerial ∧
    ∃ t, (readLoop hw key fuel startBlock addr st rd s).2.2.events = s.events ++ t ∧
      (∀ e ∈ t, ∃ a, a ∈ dataBlockAddrsAux fuel startBlock addr ∧
        (e = Event.auth a ∨ e = Event.readBlock a)) ∧
      ∃ j, readAddrs t = (dataBlockAddrsAux fuel startBlock addr).take j := by
  intro fuel
  induction fuel with
  | zero =>
    intro startBlock addr st rd s
    exact ⟨rfl, rfl, rfl, rfl, rfl, [], by simp [readLoop], by simp, 0, rfl⟩
  | succ fuel ih =>
    intro startBlock addr st rd s
    simp only [readLoop, pcdAuthenticate, mifareRead, dataBlockAddrsAux]
    split
    · split
      · -- sector trailer skipped: same address list, recurse
        exact ih startBlock (addr + 1) st rd s
      · -- data block: authenticate, then read
        split
        · -- authentication failed: stop with just the auth event
          refine ⟨rfl, rfl, rfl, rfl, rfl, [Event.auth addr], by simp, ?_, 0, by simp [readAddrs]⟩
          intro e he
          simp only [List.mem_cons, List.not_mem_nil, or_false] at he
          exact ⟨addr, by simp, Or.inl he⟩
        · split
          · -- read failed: stop with the auth and read events
            refine ⟨rfl, rfl, rfl, rfl, rfl, [Event.auth addr, Event.readBlock addr],
              by simp, ?_, 1, by simp [readAddrs]⟩
            intro e he
            simp only [List.mem_cons, List.not_mem_nil, or_false] at he
            rcases he with h | h
            · exact ⟨addr, by simp, Or.inl h⟩
            · exact ⟨addr, by simp, Or.inr h⟩
          · -- both succeeded: record and recurse
            obtain ⟨h1, h2, h3, h4, h5, t, ht, hall, j, hj⟩ := ih (startBlock + 1) (addr + 1) _ _ _
            refine ⟨h1, h2, h3, h4, h5, [Event.auth addr, Event.readBlock addr] ++ t, ?_, ?_, j + 1, ?_⟩
            · rw [ht]; simp
            · intro e he
              rcases List.mem_append.mp he with h | h
              · simp only [List.mem_cons, List.not_mem_nil, or_false] at h
                rcases h with h | h
                · exact ⟨addr, by simp, Or.inl h⟩
                · exact ⟨addr, by simp, Or.inr h⟩
              · obtain ⟨a, ha, he2⟩ := hall e h
                exact ⟨a, List.mem_cons_of_mem _ ha, he2⟩
            · rw [readAddrs_append, hj]
              simp [readAddrs, List.take_succ_cons]
    · exact ⟨rfl, rfl, rfl, rfl, rfl, [], by simp, by simp, 0, rfl⟩

/-- The write loop touches only the threaded status, the write counter and
the trace; every event is a block write on the data-block address walk,
and the writes are an initial segment of it. -/
theorem writeLoop_spec (hw : HW) (rd : List Nat) :
    ∀ (fuel startBlock addr : Nat) (st : StatusCode) (s : TState),
    (writeLoop hw rd fuel startBlock addr st s).2.uid = s.uid ∧
    (writeLoop hw rd fuel startBlock addr st s).2.blockAuth = s.blockAuth ∧
    (writeLoop hw rd fuel startBlock addr st s).2.cardData = s.cardData ∧
    (writeLoop hw rd fuel startBlock addr st s).2.piccKeyB = s.piccKeyB ∧
    (writeLoop hw rd fuel startBlock addr st s).2.nSerial = s.nSerial ∧
    ∃ t, (writeLoop hw rd fuel startBlock addr st s).2.events = s.events ++ t ∧
      (∀ e ∈ t, ∃ a, a ∈ dataBlockAddrsAux fuel startBlock addr ∧ e = Event.writeBlock a) ∧
      ∃ j, writeAddrs t = (dataBlockAddrsAux fuel startBlock addr).take j := by
  intro fuel
  induction fuel with
  | zero =>
    intro startBlock addr st s
    exact ⟨rfl, rfl, rfl, rfl, rfl, [], by simp [writeLoop], by simp, 0, rfl⟩
  | succ fuel ih =>
    intro startBlock addr st s
    simp only [writeLoop, mifareWrite, dataBlockAddrsAux]
    split
    · split
      · exact ih startBlock (addr + 1) st s
      · split
        · -- write failed: stop after the failing write
          refine ⟨rfl, rfl, rfl, rfl, rfl, [Event.writeBlock addr], by simp, ?_, 1,
            by simp [writeAddrs]⟩
          intro e he
          simp only [List.mem_cons, List.not_mem_nil, or_false] at he
          exact ⟨addr, by simp, he⟩
        · obtain ⟨h1, h2, h3, h4, h5, t, ht, hall, j, hj⟩ := ih (startBlock + 1) (addr + 1) _ _
          refine ⟨h1, h2, h3, h4, h5, [Event.writeBlock addr] ++ t, ?_, ?_, j + 1, ?_⟩
          · rw [ht]; simp
          · intro e he
            rcases List.mem_append.mp he with h | h
            · simp only [List.mem_cons, List.not_mem_nil, or_false] at h
              exact ⟨addr, by simp, h⟩
            · obtain ⟨a, ha, he2⟩ := hall e h
              exact ⟨a, List.mem_cons_of_mem _ ha, he2⟩
          · rw [writeAddrs_append, hj]
            simp [writeAddrs, List.take_succ_cons]
    · exact ⟨rfl, rfl, rfl, rfl, rfl, [], by simp, by simp, 0, rfl⟩

/-! ### Byte-buffer lemmas -/

theorem bufBytes_length (l : List Nat) (n : Nat) : (bufBytes l n).length = n := by
  simp [bufBytes]

theorem bufBytes_getD (l : List Nat) (n i : Nat) (h : i < n) :
    (bufBytes l n).getD i 0 = l.getD i 0 := by
  rw [bufBytes, List.getD_eq_getElem _ _ (by simpa using h)]
  simp

theorem bufBytes_self (l : List Nat) (n : Nat) (h : l.length = n) : bufBytes l n = l := by
  apply List.ext_getElem
  · simp [bufBytes_length, h]
  · intro i h1 h2
    have : (bufBytes l n).getD i 0 = l.getD i 0 :=
      bufBytes_getD l n i (by simpa [bufBytes_length] using h1)
    rw [List.getD_eq_getElem _ _ h1, List.getD_eq_getElem _ _ h2] at this
    exact this

theorem getD_drop (l : List Nat) (i j : Nat) : (l.drop i).getD j 0 = l.getD (i + j) 0 := by
  simp [List.getD_eq_getElem?_getD, List.getElem?_drop]

theorem bufWrite_length (dest : List Nat) (off : Nat) (src : List Nat) :
    (bufWrite dest off src).length = dest.length := by
  simp [bufWrite]

theorem bufWrite_getD_lt (dest src : List Nat) (i : Nat) (hi : i < dest.length)
    (h : i < src.length) : (bufWrite dest 0 src).getD i 0 = src.getD i 0 := by
  rw [bufWrite, List.getD_eq_getElem _ _ (by simpa using hi)]
  simp [h]

theorem trustFrame_length (uid : Uid) (rd : List Nat) :
    (trustFrame uid rd).length = TrustKeyAuthDataSize := by
  simp [trustFrame, bufBytes_length, TrustKeySize, TrustKeyAuthDataSize]

theorem secretFrame_length (uid : Uid) (dv b2 : List Nat) :
    (secretFrame uid dv b2).length = SecretKeyAuthDataSize := by
  simp [secretFrame, bufBytes_length, blockSize, SecretKeyAuthDataSize]

/-- The device-id echo bytes 40..47 of the receive buffer are exactly the
same bytes of the delivered response once a full 48-byte response
arrived. -/
theorem bufWrite_slice40 (tx d : List Nat) (htx : tx.length = TrustKeyAuthDataSize)
    (hd : d.length = TrustKeySize) :
    bufBytes ((bufWrite tx 0 d).drop 40) 8 = bufBytes (d.drop 40) 8 := by
  apply List.ext_getElem
  · simp [bufBytes_length]
  · intro i h1 h2
    have hi8 : i < 8 := by simpa [bufBytes_length] using h1
    have e1 : (bufBytes ((bufWrite tx 0 d).drop 40) 8).getD i 0 =
        (bufWrite tx 0 d).getD (40 + i) 0 := by
      rw [bufBytes_getD _ _ _ hi8, getD_drop]
    have e2 : (bufBytes (d.drop 40) 8).getD i 0 = d.getD (40 + i) 0 := by
      rw [bufBytes_getD _ _ _ hi8, getD_drop]
    have e3 : (bufWrite tx 0 d).getD (40 + i) 0 = d.getD (40 + i) 0 := by
      apply bufWrite_getD_lt
      · rw [htx]; unfold TrustKeyAuthDataSize; omega
      · rw [hd]; unfold TrustKeySize; omega
    rw [List.getD_eq_getElem _ _ h1, List.getD_eq_getElem _ _ h2] at *
    rw [e1, e3, ← e2]

/-- A full 48-byte response overwrites the receive buffer completely: the
payload copied back is the delivered response itself. -/
theorem bufWrite_take48 (tx d : List Nat) (htx : tx.length = TrustKeyAuthDataSize)
    (hd : d.length = TrustKeySize) :
    bufBytes (bufWrite tx 0 d) TrustKeySize = d := by
  apply List.ext_getElem
  · simp [bufBytes_length, hd, TrustKeySize]
  · intro i h1 h2
    have hi : i < TrustKeySize := by simpa [bufBytes_length] using h1
    have e1 : (bufBytes (bufWrite tx 0 d) TrustKeySize).getD i 0 =
        (bufWrite tx 0 d).getD i 0 := bufBytes_getD _ _ _ hi
    have e3 : (bufWrite tx 0 d).getD i 0 = d.getD i 0 := by
      apply bufWrite_getD_lt
      · rw [htx]; unfold TrustKeySize at hi; unfold TrustKeyAuthDataSize; omega
      · omega
    rw [List.getD_eq_getElem _ _ h1, List.getD_eq_getElem _ _ h2] at *
    rw [e1, e3]

/-! ### networkConn characterization -/

/-- networkConn appends exactly four events: the Network status update,
the buffer drain, the 67-byte frame write and the response read. -/
theorem networkConn_events (hw : HW) (s : TState) :
    (networkConn hw s).events = s.events ++
      [Event.statusMsg MachineState.Network, Event.serialFlush,
       Event.serialSend (trustFrame s.uid s.cardData.readData),
       Event.serialRecv ((hw.serialResp s.nSerial).take TrustKeySize).length] := by
  simp only [networkConn, setStatusMsgOp, serialFlushOp, serialWriteOp, serialReadBytesOp]
  split
  · split <;> simp
  · simp

/-- networkConn leaves uid, the stage-1 authentication record and the
derived KeyB unchanged. -/
theorem networkConn_fields (hw : HW) (s : TState) :
    (networkConn hw s).uid = s.uid ∧ (networkConn hw s).blockAuth = s.blockAuth ∧
    (networkConn hw s).piccKeyB = s.piccKeyB := by
  simp only [networkConn, setStatusMsgOp, serialFlushOp, serialWriteOp, serialReadBytesOp]
  split
  · split <;> exact ⟨rfl, rfl, rfl⟩
  · exact ⟨rfl, rfl, rfl⟩

/-- The success branch of networkConn: a full-length response whose
device-id echo matches updates the payload and reports OK. -/
theorem networkConn_success (hw : HW) (s : TState)
    (h1 : ((hw.serialResp s.nSerial).take TrustKeySize).length = TrustKeySize)
    (h2 : bufBytes ((bufWrite (trustFrame s.uid s.cardData.readData) 0
            ((hw.serialResp s.nSerial).take TrustKeySize)).drop 40) 8 = bufBytes DEVICE_ID 8) :
    (networkConn hw s).cardData =
      { status := StatusCode.STATUS_OK,
        readData := bufBytes (bufWrite (trustFrame s.uid s.cardData.readData) 0
          ((hw.serialResp s.nSerial).take TrustKeySize)) TrustKeySize } := by
  simp only [networkConn, setStatusMsgOp, serialFlushOp, serialWriteOp, serialReadBytesOp]
  simp only [h1, h2, if_true]

/-- The failure branches of networkConn: a short response or a device-id
mismatch leaves the payload buffer untouched and reports an error. -/
theorem networkConn_failure (hw : HW) (s : TState)
    (h : ¬ (((hw.serialResp s.nSerial).take TrustKeySize).length = TrustKeySize ∧
        bufBytes ((bufWrite (trustFrame s.uid s.cardData.readData) 0
          ((hw.serialResp s.nSerial).take TrustKeySize)).drop 40) 8 = bufBytes DEVICE_ID 8)) :
    (networkConn hw s).cardData = { s.cardData with status := StatusCode.STATUS_ERROR } := by
  simp only [networkConn, setStatusMsgOp, serialFlushOp, serialWriteOp, serialReadBytesOp]
  by_cases h1 : ((hw.serialResp s.nSerial).take TrustKeySize).length = TrustKeySize
  · have h2 : ¬ bufBytes ((bufWrite (trustFrame s.uid s.cardData.readData) 0
        ((hw.serialResp s.nSerial).take TrustKeySize)).drop 40) 8 = bufBytes DEVICE_ID 8 := by
      intro h2; exact h ⟨h1, h2⟩
    simp only [h1, h2, if_true, if_false]
  · simp only [h1, if_false]

/-- Reader events (auth, block read, reselect) are ReadPICCEv events. -/
theorem readerEv_readPICCEv {s : TState} {torg : Bool} {e : Event}
    (h : (∃ a, e = Event.auth a) ∨ (∃ a, e = Event.readBlock a) ∨ (∃ b, e = Event.reselect b)) :
    ReadPICCEv s torg e := by
  rcases h with h | h | h
  · exact Or.inl h
  · exact Or.inr (Or.inl h)
  · exact Or.inr (Or.inr (Or.inl h))

/-- Stages 1-2 of readPICC: only `m_blockAuth`, the reader counters and
the trace change; `m_cardData` holds the error status set on entry, and
the trace grows by the ReadTag status update followed by reader events. -/
theorem readPICCAuthStage_spec (hw : HW) (torg : Bool) (s : TState) :
    (readPICCAuthStage hw torg s).uid = s.uid ∧
    (readPICCAuthStage hw torg s).cardData =
      { s.cardData with status := StatusCode.STATUS_ERROR } ∧
    (readPICCAuthStage hw torg s).piccKeyB = s.piccKeyB ∧
    (readPICCAuthStage hw torg s).nSerial = s.nSerial ∧
    ∃ t, (readPICCAuthStage hw torg s).events =
        s.events ++ Event.statusMsg MachineState.ReadTag :: t ∧
      ∀ e ∈ t, (∃ a, e = Event.auth a) ∨ (∃ a, e = Event.readBlock a) ∨
        (∃ b, e = Event.reselect b) := by
  simp only [readPICCAuthStage, setStatusMsgOp]
  split
  · obtain ⟨h1, h2, h3, h4, t, ht, hall, _, _⟩ := attemptBlock2Auth_spec hw KeyA
      { s with
          cardData := { s.cardData with status := StatusCode.STATUS_ERROR },
          blockAuth := { s.blockAuth with status := StatusCode.STATUS_ERROR },
          events := s.events ++ [Event.statusMsg MachineState.ReadTag] }
    obtain ⟨g1, g2, g3, g4, u, hu, hallu⟩ := tryDefaultKeys_spec hw defaultPICCKeyAs _
    refine ⟨g1.trans h1, g2.trans h2, g3.trans h3, g4.trans h4, t ++ u, ?_, ?_⟩
    · rw [hu, ht]; simp
    · intro e he
      rcases List.mem_append.mp he with h | h
      · exact hall e h
      · exact hallu e h
  · obtain ⟨h1, h2, h3, h4, t, ht, hall, _, _⟩ := attemptBlock2Auth_spec hw KeyA
      { s with
          cardData := { s.cardData with status := StatusCode.STATUS_ERROR },
          blockAuth := { s.blockAuth with status := StatusCode.STATUS_ERROR },
          events := s.events ++ [Event.statusMsg MachineState.ReadTag] }
    refine ⟨h1, h2, h3, h4, t, ?_, hall⟩
    rw [ht]; simp

/-- readPICC: the uid is untouched, the trace grows by the ReadTag status
update followed by ReadPICCEv events only (in particular its only serial
frame is a 35-byte secret-key request), and an OK outcome requires the
secret-key response to have delivered exactly 6 bytes. -/
theorem readPICC_spec (hw : HW) (torg : Bool) (s : TState) :
    (readPICC hw torg s).uid = s.uid ∧
    (∃ t, (readPICC hw torg s).events = s.events ++ Event.statusMsg MachineState.ReadTag :: t ∧
      ∀ e ∈ t, ReadPICCEv s torg e) ∧
    ((readPICC hw torg s).cardData.status = StatusCode.STATUS_OK →
      ((hw.serialResp s.nSerial).take MF_KEY_SIZE).length = MF_KEY_SIZE) := by
  obtain ⟨hu, hcd, hkb, hns, t0, ht0, hall0⟩ := readPICCAuthStage_spec hw torg s
  simp only [readPICC, serialFlushOp, serialWriteOp, serialReadBytesOp]
  by_cases hA : (readPICCAuthStage hw torg s).blockAuth.status = StatusCode.STATUS_OK
  · rw [if_neg (not_not_intro hA)]
    by_cases hB : ((hw.serialResp (readPICCAuthStage hw torg s).nSerial).take
        MF_KEY_SIZE).length = MF_KEY_SIZE
    · rw [if_neg (not_not_intro hB)]
      rw [hns] at hB
      by_cases hC : ((readPICCAuthStage hw torg s).blockAuth.block0Addr + blocksToRead) % 256 ≤
          maxBlockNo
      · rw [if_pos hC]
        obtain ⟨g1, g2, g3, g4, g5, tl, htl, halll, _, _⟩ := readLoop_spec hw
          (if (readPICCAuthStage hw torg s).blockAuth.isCardNew then
            (readPICCAuthStage hw torg s).blockAuth.authKeyA
          else setPICCAuthKeyB (readPICCAuthStage hw torg s).uid
            (bufBytes ((hw.serialResp (readPICCAuthStage hw torg s).nSerial).take MF_KEY_SIZE)
              MF_KEY_SIZE))
          64 0 ((readPICCAuthStage hw torg s).blockAuth.block0Addr)
          (readPICCAuthStage hw torg s).cardData.status
          (readPICCAuthStage hw torg s).cardData.readData _
        refine ⟨g1.trans hu, ⟨t0 ++ Event.serialFlush ::
          Event.serialSend (secretFrame s.uid
            (if torg then DEVICE_ID else List.replicate 8 0)
            (readPICCAuthStage hw torg s).blockAuth.block2Data) ::
          Event.serialRecv ((hw.serialResp s.nSerial).take MF_KEY_SIZE).length :: tl, ?_, ?_⟩,
          fun _ => hB⟩
        · rw [htl, ht0, hu, hns]
          simp
        · intro e he
          rcases List.mem_append.mp he with h | h
          · exact readerEv_readPICCEv (hall0 e h)
          · simp only [List.mem_cons] at h
            rcases h with h | h | h | h
            · exact Or.inr (Or.inr (Or.inr (Or.inl h)))
            · exact Or.inr (Or.inr (Or.inr (Or.inr (Or.inr
                ⟨(readPICCAuthStage hw torg s).blockAuth.block2Data, h⟩))))
            · exact Or.inr (Or.inr (Or.inr (Or.inr (Or.inl ⟨_, h⟩))))
            · exact readerEv_readPICCEv (by
                obtain ⟨a, _, h2⟩ := halll e h
                rcases h2 with h2 | h2
                · exact Or.inl ⟨a, h2⟩
                · exact Or.inr (Or.inl ⟨a, h2⟩))
      · rw [if_neg hC]
        refine ⟨hu, ⟨t0 ++ [Event.serialFlush,
          Event.serialSend (secretFrame s.uid
            (if torg then DEVICE_ID else List.replicate 8 0)
            (readPICCAuthStage hw torg s).blockAuth.block2Data),
          Event.serialRecv ((hw.serialResp s.nSerial).take MF_KEY_SIZE).length], ?_, ?_⟩,
          fun _ => hB⟩
        · rw [ht0, hu, hns]
          simp
        · intro e he
          rcases List.mem_append.mp he with h | h
          · exact readerEv_readPICCEv (hall0 e h)
          · simp only [List.mem_cons, List.not_mem_nil, or_false] at h
            rcases h with h | h | h
            · exact Or.inr (Or.inr (Or.inr (Or.inl h)))
            · exact Or.inr (Or.inr (Or.inr (Or.inr (Or.inr
                ⟨(readPICCAuthStage hw torg s).blockAuth.block2Data, h⟩))))
            · exact Or.inr (Or.inr (Or.inr (Or.inr (Or.inl ⟨_, h⟩))))
    · rw [if_pos hB]
      refine ⟨hu, ⟨t0 ++ [Event.serialFlush,
        Event.serialSend (secretFrame s.uid
          (if torg then DEVICE_ID else List.replicate 8 0)
          (readPICCAuthStage hw torg s).blockAuth.block2Data),
        Event.serialRecv ((hw.serialResp s.nSerial).take MF_KEY_SIZE).length], ?_, ?_⟩, ?_⟩
      · rw [ht0, hu, hns]
        simp
      · intro e he
        rcases List.mem_append.mp he with h | h
        · exact readerEv_readPICCEv (hall0 e h)
        · simp only [List.mem_cons, List.not_mem_nil, or_false] at h
          rcases h with h | h | h
          · exact Or.inr (Or.inr (Or.inr (Or.inl h)))
          · exact Or.inr (Or.inr (Or.inr (Or.inr (Or.inr
              ⟨(readPICCAuthStage hw torg s).blockAuth.block2Data, h⟩))))
          · exact Or.inr (Or.inr (Or.inr (Or.inr (Or.inl ⟨_, h⟩))))
      · intro hOK
        rw [hcd] at hOK
        exact absurd hOK (by simp)
  · rw [if_pos hA]
    refine ⟨hu, ⟨t0, ht0, fun e he => readerEv_readPICCEv (hall0 e he)⟩, ?_⟩
    intro hOK
    rw [hcd] at hOK
    exact absurd hOK (by simp)

/-- writePICC: only `m_cardData.status`, the write counter and the trace
change; the trace grows by the WriteTag status update followed by block
writes whose addresses are an initial segment of the data-block walk
starting at `m_blockAuth.block0Addr`. -/
theorem writePICC_spec (hw : HW) (s : TState) :
    (writePICC hw s).uid = s.uid ∧
    (writePICC hw s).blockAuth = s.blockAuth ∧
    (writePICC hw s).piccKeyB = s.piccKeyB ∧
    (writePICC hw s).nSerial = s.nSerial ∧
    (writePICC hw s).cardData.readData = s.cardData.readData ∧
    ∃ t, (writePICC hw s).events = s.events ++ Event.statusMsg MachineState.WriteTag :: t ∧
      (∀ e ∈ t, ∃ a, a ∈ dataBlockAddrs s.blockAuth.block0Addr ∧ e = Event.writeBlock a) ∧
      ∃ j, writeAddrs t = (dataBlockAddrs s.blockAuth.block0Addr).take j := by
  obtain ⟨h1, h2, h3, h4, h5, t, ht, hall, j, hj⟩ := writeLoop_spec hw
    s.cardData.readData 64 0 s.blockAuth.block0Addr s.cardData.status
    { s with events := s.events ++ [Event.statusMsg MachineState.WriteTag] }
  simp only [writePICC, setStatusMsgOp]
  refine ⟨h1, h2, h4, h5, by simp [h3], t, ?_, hall, j, hj⟩
  rw [ht]
  simp

/-- setUidBasedKey: the transmitter state fields are untouched; the only
events it can add are the sector-trailer authentication and the
sector-trailer write of the upgraded key configuration. -/
theorem setUidBasedKey_spec (hw : HW) (torg : Bool) (s : TState) :
    (setUidBasedKey hw torg s).2.uid = s.uid ∧
    (setUidBasedKey hw torg s).2.blockAuth = s.blockAuth ∧
    (setUidBasedKey hw torg s).2.cardData = s.cardData ∧
    (setUidBasedKey hw torg s).2.piccKeyB = s.piccKeyB ∧
    ∃ t, (setUidBasedKey hw torg s).2.events = s.events ++ t ∧
      ∀ e ∈ t, e = Event.auth ((s.blockAuth.block0Addr + sectorBlocks - 1) % 256) ∨
        e = Event.writeBlock ((s.blockAuth.block0Addr + sectorBlocks - 1) % 256) := by
  simp only [setUidBasedKey, pcdAuthenticate, mifareWrite]
  split
  · split
    · refine ⟨rfl, rfl, rfl, rfl,
        [Event.auth ((s.blockAuth.block0Addr + sectorBlocks - 1) % 256),
         Event.writeBlock ((s.blockAuth.block0Addr + sectorBlocks - 1) % 256)], by simp, ?_⟩
      intro e he
      simp only [List.mem_cons, List.not_mem_nil, or_false] at he
      exact he
    · refine ⟨rfl, rfl, rfl, rfl,
        [Event.auth ((s.blockAuth.block0Addr + sectorBlocks - 1) % 256)], by simp, ?_⟩
      intro e he
      simp only [List.mem_cons, List.not_mem_nil, or_false] at he
      exact Or.inl he
  · exact ⟨rfl, rfl, rfl, rfl, [], by simp, by simp⟩

/-- A card not classified as new is never upgraded: setUidBasedKey is a
no-op returning the error status. -/
theorem setUidBasedKey_notNew (hw : HW) (torg : Bool) (s : TState)
    (h : s.blockAuth.isCardNew = false) :
    setUidBasedKey hw torg s = (StatusCode.STATUS_ERROR, s) := by
  simp [setUidBasedKey, h]

/-- cleanUpAfterCardOps appends exactly its three reset events. -/
theorem cleanUpAfterCardOps_events (s : TState) :
    (cleanUpAfterCardOps s).events =
      s.events ++ [Event.irqReset, Event.halt, Event.stopCrypto] := rfl

/-- Events a readPICC stage can add are never a halt. -/
theorem readPICCEv_ne_halt {s : TState} {torg : Bool} {e : Event}
    (h : ReadPICCEv s torg e) : e ≠ Event.halt := by
  rcases h with ⟨a, h⟩ | ⟨a, h⟩ | ⟨b, h⟩ | h | ⟨n, h⟩ | ⟨b2, h⟩ <;> subst h <;> simp

/-- Events a readPICC stage can add are never a status update. -/
theorem readPICCEv_ne_statusMsg {s : TState} {torg : Bool} {e : Event}
    (h : ReadPICCEv s torg e) : ∀ m, e ≠ Event.statusMsg m := by
  intro m
  rcases h with ⟨a, h⟩ | ⟨a, h⟩ | ⟨b, h⟩ | h | ⟨n, h⟩ | ⟨b2, h⟩ <;> subst h <;> simp

/-- Full-cycle trace decomposition of handleDetectedCard when a card was
detected: the reselect event, the readPICC events, the networkConn events
exactly when the read stage reported OK, the writePICC events exactly when
the read and the network stages both reported OK, possibly
trust-organization key-upgrade events, and the cleanup and StandBy events,
in this order. -/
theorem handleDetectedCard_events (hw : HW) (torg : Bool) (s : TState)
    (hdet : hw.cardResp s.nCard = true) :
    ∃ tR tN tW tU,
      (handleDetectedCard hw torg s).events =
        s.events ++ [Event.reselect true] ++ (Event.statusMsg MachineState.ReadTag :: tR) ++
          tN ++ tW ++ tU ++
          [Event.irqReset, Event.halt, Event.stopCrypto,
           Event.statusMsg MachineState.StandBy] ∧
      (∀ e ∈ tR, ReadPICCEv (isNewCardDetectedOp hw s).2 torg e) ∧
      (tN = if (readPICC hw torg (isNewCardDetectedOp hw s).2).cardData.status =
          StatusCode.STATUS_OK then
          [Event.statusMsg MachineState.Network, Event.serialFlush,
           Event.serialSend (trustFrame
             (readPICC hw torg (isNewCardDetectedOp hw s).2).uid
             (readPICC hw torg (isNewCardDetectedOp hw s).2).cardData.readData),
           Event.serialRecv ((hw.serialResp
             (readPICC hw torg (isNewCardDetectedOp hw s).2).nSerial).take
               TrustKeySize).length]
        else []) ∧
      (((readPICC hw torg (isNewCardDetectedOp hw s).2).cardData.status =
          StatusCode.STATUS_OK ∧
        (networkConn hw (readPICC hw torg (isNewCardDetectedOp hw s).2)).cardData.status =
          StatusCode.STATUS_OK) →
        ∃ tw, tW = Event.statusMsg MachineState.WriteTag :: tw ∧
          ∀ e ∈ tw, ∃ a, e = Event.writeBlock a) ∧
      ((¬ ((readPICC hw torg (isNewCardDetectedOp hw s).2).cardData.status =
          StatusCode.STATUS_OK ∧
        (networkConn hw (readPICC hw torg (isNewCardDetectedOp hw s).2)).cardData.status =
          StatusCode.STATUS_OK)) → tW = []) ∧
      (∀ e ∈ tU, (∃ a, e = Event.auth a) ∨ (∃ a, e = Event.writeBlock a)) := by
  obtain ⟨huR, ⟨tR, htR, hallR⟩, _⟩ := readPICC_spec hw torg (isNewCardDetectedOp hw s).2
  have h1ev : (isNewCardDetectedOp hw s).2.events = s.events ++ [Event.reselect true] := by
    simp [isNewCardDetectedOp, hdet]
  refine ⟨tR, ?_⟩
  simp only [handleDetectedCard, setStatusMsgOp]
  have hd1 : (isNewCardDetectedOp hw s).1 = true := by simp [isNewCardDetectedOp, hdet]
  rw [if_pos hd1]
  by_cases hR : (readPICC hw torg (isNewCardDetectedOp hw s).2).cardData.status =
      StatusCode.STATUS_OK
  · rw [if_pos hR]
    have hnet := networkConn_events hw (readPICC hw torg (isNewCardDetectedOp hw s).2)
    by_cases hNet : (networkConn hw (readPICC hw torg (isNewCardDetectedOp hw s).2)).cardData.status =
        StatusCode.STATUS_OK
    · rw [if_pos hNet]
      obtain ⟨_, hba, _, _, _, tw, htw, hallw, _, _⟩ :=
        writePICC_spec hw (networkConn hw (readPICC hw torg (isNewCardDetectedOp hw s).2))
      by_cases hT : torg = true
      · rw [if_pos hT]
        by_cases hS : (writePICC hw (networkConn hw
            (readPICC hw torg (isNewCardDetectedOp hw s).2))).cardData.status =
            StatusCode.STATUS_OK
        · rw [if_pos hS]
          obtain ⟨_, _, _, _, tU, htU, hallU⟩ := setUidBasedKey_spec hw torg
            (writePICC hw (networkConn hw (readPICC hw torg (isNewCardDetectedOp hw s).2)))
          refine ⟨[Event.statusMsg MachineState.Network, Event.serialFlush,
              Event.serialSend (trustFrame
                (readPICC hw torg (isNewCardDetectedOp hw s).2).uid
                (readPICC hw torg (isNewCardDetectedOp hw s).2).cardData.readData),
              Event.serialRecv ((hw.serialResp
                (readPICC hw torg (isNewCardDetectedOp hw s).2).nSerial).take
                  TrustKeySize).length],
            Event.statusMsg MachineState.WriteTag :: tw, tU, ?_, hallR, by rw [if_pos hR],
            fun _ => ⟨tw, rfl, fun e he => by
              obtain ⟨a, _, h2⟩ := hallw e he; exact ⟨a, h2⟩⟩,
            fun hc => absurd ⟨hR, hNet⟩ hc,
            fun e he => by
              rcases hallU e he with h | h
              · exact Or.inl ⟨_, h⟩
              · exact Or.inr ⟨_, h⟩⟩
          rw [cleanUpAfterCardOps_events, htU, htw, hnet, htR, h1ev]
          simp [List.append_assoc]
        · rw [if_neg hS]
          refine ⟨[Event.statusMsg MachineState.Network, Event.serialFlush,
              Event.serialSend (trustFrame
                (readPICC hw torg (isNewCardDetectedOp hw s).2).uid
                (readPICC hw torg (isNewCardDetectedOp hw s).2).cardData.readData),
              Event.serialRecv ((hw.serialResp
                (readPICC hw torg (isNewCardDetectedOp hw s).2).nSerial).take
                  TrustKeySize).length],
            Event.statusMsg MachineState.WriteTag :: tw, [], ?_, hallR, by rw [if_pos hR],
            fun _ => ⟨tw, rfl, fun e he => by
              obtain ⟨a, _, h2⟩ := hallw e he; exact ⟨a, h2⟩⟩,
            fun hc => absurd ⟨hR, hNet⟩ hc, by simp⟩
          rw [cleanUpAfterCardOps_events, htw, hnet, htR, h1ev]
          simp [List.append_assoc]
      · rw [if_neg hT]
        refine ⟨[Event.statusMsg MachineState.Network, Event.serialFlush,
            Event.serialSend (trustFrame
              (readPICC hw torg (isNewCardDetectedOp hw s).2).uid
              (readPICC hw torg (isNewCardDetectedOp hw s).2).cardData.readData),
            Event.serialRecv ((hw.serialResp
              (readPICC hw torg (isNewCardDetectedOp hw s).2).nSerial).take
                TrustKeySize).length],
          Event.statusMsg MachineState.WriteTag :: tw, [], ?_, hallR, by rw [if_pos hR],
          fun _ => ⟨tw, rfl, fun e he => by
            obtain ⟨a, _, h2⟩ := hallw e he; exact ⟨a, h2⟩⟩,
          fun hc => absurd ⟨hR, hNet⟩ hc, by simp⟩
        rw [cleanUpAfterCardOps_events, htw, hnet, htR, h1ev]
        simp [List.append_assoc]
    · rw [if_neg hNet]
      have hupg : (if torg = true then
          (if (networkConn hw (readPICC hw torg (isNewCardDetectedOp hw s).2)).cardData.status =
              StatusCode.STATUS_OK then
            ((fun u => { u.2 with cardData := { u.2.cardData with status := u.1 } })
              (setUidBasedKey hw torg (networkConn hw
                (readPICC hw torg (isNewCardDetectedOp hw s).2))))
          else networkConn hw (readPICC hw torg (isNewCardDetectedOp hw s).2))
        else networkConn hw (readPICC hw torg (isNewCardDetectedOp hw s).2)) =
          networkConn hw (readPICC hw torg (isNewCardDetectedOp hw s).2) := by
        by_cases hT : torg = true
        · rw [if_pos hT, if_neg hNet]
        · rw [if_neg hT]
      refine ⟨[Event.statusMsg MachineState.Network, Event.serialFlush,
          Event.serialSend (trustFrame
            (readPICC hw torg (isNewCardDetectedOp hw s).2).uid
            (readPICC hw torg (isNewCardDetectedOp hw s).2).cardData.readData),
          Event.serialRecv ((hw.serialResp
            (readPICC hw torg (isNewCardDetectedOp hw s).2).nSerial).take
              TrustKeySize).length],
        [], [], ?_, hallR, by rw [if_pos hR], fun hc => absurd hc.2 hNet,
        fun _ => rfl, by simp⟩
      rw [hupg, cleanUpAfterCardOps_events, hnet, htR, h1ev]
      simp [List.append_assoc]
  · rw [if_neg hR, if_neg hR]
    have hupg : (if torg = true then
        (if (readPICC hw torg (isNewCardDetectedOp hw s).2).cardData.status =
            StatusCode.STATUS_OK then
          ((fun u => { u.2 with cardData := { u.2.cardData with status := u.1 } })
            (setUidBasedKey hw torg (readPICC hw torg (isNewCardDetectedOp hw s).2)))
        else readPICC hw torg (isNewCardDetectedOp hw s).2)
      else readPICC hw torg (isNewCardDetectedOp hw s).2) =
        readPICC hw torg (isNewCardDetectedOp hw s).2 := by
      by_cases hT : torg = true
      · rw [if_pos hT, if_neg hR]
      · rw [if_neg hT]
    refine ⟨[], [], [], ?_, hallR, by rw [if_neg hR], fun hc => absurd hc.1 hR,
      fun _ => rfl, by simp⟩
    rw [hupg, cleanUpAfterCardOps_events, htR, h1ev]
    simp [List.append_assoc]

theorem not_mem_of_forall_ne {x : Event} {t : List Event} (h : ∀ e ∈ t, e ≠ x) : x ∉ t :=
  fun hx => h x hx rfl

theorem not_mem_app {x : Event} {l1 l2 : List Event} (h1 : x ∉ l1) (h2 : x ∉ l2) :
    x ∉ l1 ++ l2 := by
  rw [List.mem_append]
  rintro (h | h)
  exacts [h1 h, h2 h]

theorem countHalt_zero {t : List Event} (h : ∀ e ∈ t, e ≠ Event.halt) : countHalt t = 0 := by
  rw [countHalt, List.countP_eq_zero]
  intro e he
  simpa using h e he

/-- C1: in every detection cycle started by handleDetectedCard (with
isNewCardDetected true), the network stage runs exactly when the read
stage reported STATUS_OK, the write stage runs exactly when both the read
and the network stages reported STATUS_OK (entry into a stage is
witnessed by its status event in the trace, which occurs nowhere else),
and cleanUpAfterCardOps runs exactly once whichever stage failed
(witnessed by exactly one PICC_HaltA event being added to the trace). -/
theorem claimC1 (hw : HW) (torg : Bool) (s : TState)
    (hdet : hw.cardResp s.nCard = true)
    (hN : Event.statusMsg MachineState.Network ∉ s.events)
    (hW : Event.statusMsg MachineState.WriteTag ∉ s.events) :
    ((Event.statusMsg MachineState.Network ∈ (handleDetectedCard hw torg s).events) ↔
      (readPICC hw torg (isNewCardDetectedOp hw s).2).cardData.status =
        StatusCode.STATUS_OK) ∧
    ((Event.statusMsg MachineState.WriteTag ∈ (handleDetectedCard hw torg s).events) ↔
      ((readPICC hw torg (isNewCardDetectedOp hw s).2).cardData.status =
        StatusCode.STATUS_OK ∧
       (networkConn hw (readPICC hw torg (isNewCardDetectedOp hw s).2)).cardData.status =
        StatusCode.STATUS_OK)) ∧
    countHalt (handleDetectedCard hw torg s).events = countHalt s.events + 1 := by
  obtain ⟨tR, tN, tW, tU, hev, hallR, htN, htWpos, htWneg, hallU⟩ :=
    handleDetectedCard_events hw torg s hdet
  have htRne : ∀ m, Event.statusMsg m ∉ tR :=
    fun m => not_mem_of_forall_ne (fun e he => readPICCEv_ne_statusMsg (hallR e he) m)
  have htUne : ∀ m, Event.statusMsg m ∉ tU := by
    intro m
    refine not_mem_of_forall_ne (fun e he => ?_)
    rcases hallU e he with ⟨a, h⟩ | ⟨a, h⟩ <;> subst h <;> simp
  refine ⟨?_, ?_, ?_⟩
  · by_cases hR : (readPICC hw torg (isNewCardDetectedOp hw s).2).cardData.status =
        StatusCode.STATUS_OK
    · refine iff_of_true ?_ hR
      rw [hev, htN, if_pos hR]
      simp
    · refine iff_of_false ?_ hR
      rw [hev, htN, if_neg hR, htWneg (fun hc => hR hc.1)]
      refine not_mem_app (not_mem_app (not_mem_app (not_mem_app (not_mem_app
        (not_mem_app hN (by simp)) ?_) (by simp)) (by simp)) (htUne _)) (by simp)
      simp only [List.mem_cons, not_or]
      exact ⟨by simp, htRne _⟩
  · by_cases hR : (readPICC hw torg (isNewCardDetectedOp hw s).2).cardData.status =
        StatusCode.STATUS_OK
    · by_cases hNet : (networkConn hw
          (readPICC hw torg (isNewCardDetectedOp hw s).2)).cardData.status =
          StatusCode.STATUS_OK
      · refine iff_of_true ?_ ⟨hR, hNet⟩
        obtain ⟨tw, htw, _⟩ := htWpos ⟨hR, hNet⟩
        rw [hev, htw]
        simp
      · refine iff_of_false ?_ (fun hc => hNet hc.2)
        rw [hev, htN, if_pos hR, htWneg (fun hc => hNet hc.2)]
        refine not_mem_app (not_mem_app (not_mem_app (not_mem_app (not_mem_app
          (not_mem_app hW (by simp)) ?_) (by simp)) (by simp)) (htUne _)) (by simp)
        simp only [List.mem_cons, not_or]
        exact ⟨by simp, htRne _⟩
    · refine iff_of_false ?_ (fun hc => hR hc.1)
      rw [hev, htN, if_neg hR, htWneg (fun hc => hR hc.1)]
      refine not_mem_app (not_mem_app (not_mem_app (not_mem_app (not_mem_app
        (not_mem_app hW (by simp)) ?_) (by simp)) (by simp)) (htUne _)) (by simp)
      simp only [List.mem_cons, not_or]
      exact ⟨by simp, htRne _⟩
  · have hzR : countHalt (Event.statusMsg MachineState.ReadTag :: tR) = 0 :=
      countHalt_zero (by
        intro e he
        simp only [List.mem_cons] at he
        rcases he with h | h
        · subst h; simp
        · exact readPICCEv_ne_halt (hallR e h))
    have hzN : countHalt tN = 0 := by
      rw [htN]
      split
      · exact countHalt_zero (by
          intro e he
          simp only [List.mem_cons, List.not_mem_nil, or_false] at he
          rcases he with h | h | h | h <;> subst h <;> simp)
      · rfl
    have hzW : countHalt tW = 0 := by
      by_cases hc : (readPICC hw torg (isNewCardDetectedOp hw s).2).cardData.status =
          StatusCode.STATUS_OK ∧
          (networkConn hw (readPICC hw torg (isNewCardDetectedOp hw s).2)).cardData.status =
          StatusCode.STATUS_OK
      · obtain ⟨tw, htw, hallw⟩ := htWpos hc
        rw [htw]
        exact countHalt_zero (by
          intro e he
          simp only [List.mem_cons] at he
          rcases he with h | h
          · subst h; simp
          · obtain ⟨a, h2⟩ := hallw e h; subst h2; simp)
      · rw [htWneg hc]; rfl
    have hzU : countHalt tU = 0 :=
      countHalt_zero (by
        intro e he
        rcases hallU e he with ⟨a, h⟩ | ⟨a, h⟩ <;> subst h <;> simp)
    rw [hev, countHalt_append, countHalt_append, countHalt_append, countHalt_append,
      countHalt_append, countHalt_append, hzR, hzN, hzW, hzU]
    rfl

/-- Witness for C1: at an all-success oracle and a fresh state the network
and write stages both run and cleanup runs exactly once. -/
theorem claimC1_witness :
    ((Event.statusMsg MachineState.Network ∈ (handleDetectedCard hwOk false st0).events) ↔
      (readPICC hwOk false (isNewCardDetectedOp hwOk st0).2).cardData.status =
        StatusCode.STATUS_OK) ∧
    ((Event.statusMsg MachineState.WriteTag ∈ (handleDetectedCard hwOk false st0).events) ↔
      ((readPICC hwOk false (isNewCardDetectedOp hwOk st0).2).cardData.status =
        StatusCode.STATUS_OK ∧
       (networkConn hwOk (readPICC hwOk false (isNewCardDetectedOp hwOk st0).2)).cardData.status =
        StatusCode.STATUS_OK)) ∧
    countHalt (handleDetectedCard hwOk false st0).events = countHalt st0.events + 1 :=
  claimC1 hwOk false st0 rfl (List.not_mem_nil _) (List.not_mem_nil _)

theorem bufBytes_DEVICE_ID : bufBytes DEVICE_ID 8 = DEVICE_ID := by decide

/-- C3: response validation accepts only exact lengths and a matching
identity echo: the secret-key stage of readPICC can report STATUS_OK only
if the serial response delivered exactly 6 bytes, and networkConn reports
STATUS_OK if and only if exactly 48 bytes were delivered and bytes 40..47
of the response equal the 8-byte DEVICE_ID. -/
theorem claimC3 (hw : HW) (torg : Bool) (s : TState) :
    ((readPICC hw torg s).cardData.status = StatusCode.STATUS_OK →
      ((hw.serialResp s.nSerial).take MF_KEY_SIZE).length = MF_KEY_SIZE) ∧
    ((networkConn hw s).cardData.status = StatusCode.STATUS_OK ↔
      (((hw.serialResp s.nSerial).take TrustKeySize).length = TrustKeySize ∧
        bufBytes (((hw.serialResp s.nSerial).take TrustKeySize).drop 40) 8 = DEVICE_ID)) := by
  refine ⟨(readPICC_spec hw torg s).2.2, ?_, ?_⟩
  · intro hOK
    by_cases hc : (((hw.serialResp s.nSerial).take TrustKeySize).length = TrustKeySize ∧
        bufBytes ((bufWrite (trustFrame s.uid s.cardData.readData) 0
          ((hw.serialResp s.nSerial).take TrustKeySize)).drop 40) 8 = bufBytes DEVICE_ID 8)
    · have hb := bufWrite_slice40 (trustFrame s.uid s.cardData.readData)
        ((hw.serialResp s.nSerial).take TrustKeySize) (trustFrame_length _ _) hc.1
      rw [hb] at hc
      exact ⟨hc.1, hc.2.trans bufBytes_DEVICE_ID⟩
    · have hf := networkConn_failure hw s hc
      rw [hf] at hOK
      simp at hOK
  · rintro ⟨hlen, hslice⟩
    have hb := bufWrite_slice40 (trustFrame s.uid s.cardData.readData)
      ((hw.serialResp s.nSerial).take TrustKeySize) (trustFrame_length _ _) hlen
    have h2 : bufBytes ((bufWrite (trustFrame s.uid s.cardData.readData) 0
        ((hw.serialResp s.nSerial).take TrustKeySize)).drop 40) 8 = bufBytes DEVICE_ID 8 := by
      rw [hb, hslice]
      exact bufBytes_DEVICE_ID.symm
    rw [networkConn_success hw s hlen h2]

/-- C9: network failure is atomic with respect to the credential payload:
whenever networkConn does not report STATUS_OK the readData buffer is
exactly what was read from the tag, and on STATUS_OK it is exactly the
delivered 48-byte response (the only overwrite is in the success
branch). -/
theorem claimC9 (hw : HW) (s : TState) :
    ((networkConn hw s).cardData.status ≠ StatusCode.STATUS_OK →
      (networkConn hw s).cardData.readData = s.cardData.readData) ∧
    ((networkConn hw s).cardData.status = StatusCode.STATUS_OK →
      (networkConn hw s).cardData.readData = (hw.serialResp s.nSerial).take TrustKeySize) := by
  by_cases hc : (((hw.serialResp s.nSerial).take TrustKeySize).length = TrustKeySize ∧
      bufBytes ((bufWrite (trustFrame s.uid s.cardData.readData) 0
        ((hw.serialResp s.nSerial).take TrustKeySize)).drop 40) 8 = bufBytes DEVICE_ID 8)
  · have hs := networkConn_success hw s hc.1 hc.2
    constructor
    · intro hne
      rw [hs] at hne
      simp at hne
    · intro _
      rw [hs]
      exact bufWrite_take48 _ _ (trustFrame_length _ _) hc.1
  · have hf := networkConn_failure hw s hc
    constructor
    · intro _
      rw [hf]
    · intro hOK
      rw [hf] at hOK
      simp at hOK

theorem rangeMap_getD (f : Nat → Nat) (n i : Nat) (h : i < n) :
    ((List.range n).map f).getD i 0 = f i := by
  rw [List.getD_eq_getElem _ _ (by simpa using h)]
  simp

/-- Byte `i` of the spec's zero-padded truncation of the first `size` uid
bytes agrees with the `TagUid` buffer the source builds by memcpy. -/
theorem zeroPadTagId_take_getD (l : List Nat) (size i : Nat) (h6 : i < 6) :
    (zeroPadTagId (l.take size)).getD i 0 = if i < min size 6 then l.getD i 0 else 0 := by
  simp only [zeroPadTagId, MF_KEY_SIZE]
  rw [List.getD_eq_getElem?_getD, List.getElem?_append]
  simp only [List.length_take]
  by_cases hA : i < min 6 (min size l.length)
  · rw [if_pos hA]
    have hsz : i < size := by omega
    rw [if_pos (show i < min size 6 by omega)]
    simp [List.getElem?_take, h6, hsz, List.getD_eq_getElem?_getD]
  · rw [if_neg hA]
    have hm6 : min 6 (min size l.length) = min size l.length := by omega
    rw [hm6]
    have hrep : i - min size l.length < 6 - min size l.length := by omega
    simp only [List.getElem?_replicate, hrep, if_true, Option.getD_some]
    by_cases hB : i < min size 6
    · rw [if_pos hB]
      have hd : l.length ≤ i := by omega
      rw [List.getD_eq_default _ _ hd]
    · rw [if_neg hB]

/-- The memcpy-built `TagUid` buffer of setPICCAuthKeyB reads, byte for
byte, as the spec's zero-padded 6-byte truncation of the valid uid
bytes. -/
theorem tagUidBuf_eq_zeroPad (uid : Uid) (i : Nat) (h6 : i < 6) :
    (tagUidBuf uid).getD i 0 = (zeroPadTagId (uid.uidByte.take uid.size)).getD i 0 := by
  rw [zeroPadTagId_take_getD _ _ _ h6, tagUidBuf]
  rw [rangeMap_getD _ _ _ (by simpa [MF_KEY_SIZE] using h6)]
  simp [MF_KEY_SIZE]

/-- C4: the KeyB derived by setPICCAuthKeyB is exactly the spec's
deriveKeyB: the byte-wise XOR of the server secret, the hardcoded KeyA
and the tag uid truncated to its first 6 valid bytes and zero-padded on
the high end when shorter; being a function of its inputs it is pure and
deterministic. -/
theorem claimC4 (uid : Uid) (secretKey : List Nat) :
    setPICCAuthKeyB uid secretKey =
      specDeriveKeyB secretKey KeyA (uid.uidByte.take uid.size) := by
  unfold setPICCAuthKeyB specDeriveKeyB
  refine List.map_congr_left (fun i hi => ?_)
  have h6 : i < 6 := by simpa [MF_KEY_SIZE] using hi
  rw [tagUidBuf_eq_zeroPad uid i h6]

/-- C5: the uid-based key derivation of the earlier revision
(src/unnamed/part_008) is an involution: XORing the seed with the uid
buffer twice gives back the seed. -/
theorem claimC5 (seed uidByte : List Nat) (h : seed.length = MF_KEY_SIZE) :
    setPICCAuthKey (setPICCAuthKey seed uidByte) uidByte = seed := by
  unfold setPICCAuthKey
  apply List.ext_getElem
  · simpa [MF_KEY_SIZE] using h.symm
  · intro i h1 h2
    have h6 : i < 6 := by simpa [MF_KEY_SIZE] using h1
    simp only [List.getElem_map, List.getElem_range]
    rw [rangeMap_getD _ _ _ (by simpa [MF_KEY_SIZE] using h6)]
    rw [show seed[i] = seed.getD i 0 from
      (List.getD_eq_getElem seed 0 h2).symm]
    exact Nat.xor_cancel_right (uidByte.getD i 0) (seed.getD i 0)

/-- Witness for C5 at a concrete 6-byte seed and 4-byte uid. -/
theorem claimC5_witness :
    setPICCAuthKey (setPICCAuthKey [1, 2, 3, 4, 5, 6] [9, 8, 7, 6])
      [9, 8, 7, 6] = [1, 2, 3, 4, 5, 6] :=
  claimC5 [1, 2, 3, 4, 5, 6] [9, 8, 7, 6] rfl

/-- Bytes 1..10 of a secret-key frame are the 10 uid buffer bytes. -/
theorem secretFrame_uidField (uid : Uid) (dv b2 : List Nat) :
    ((secretFrame uid dv b2).drop 1).take 10 = bufBytes uid.uidByte 10 := by
  show ((uid.size :: (bufBytes uid.uidByte 10 ++ bufBytes dv 8 ++
    bufBytes b2 blockSize)).drop (0 + 1)).take 10 = bufBytes uid.uidByte 10
  rw [List.drop_succ_cons, List.drop_zero, List.append_assoc,
    List.take_left' (bufBytes_length _ _)]

/-- Bytes 11..18 of a secret-key frame are the 8 device-id buffer bytes. -/
theorem secretFrame_devField (uid : Uid) (dv b2 : List Nat) :
    ((secretFrame uid dv b2).drop 11).take 8 = bufBytes dv 8 := by
  show ((uid.size :: (bufBytes uid.uidByte 10 ++ bufBytes dv 8 ++
    bufBytes b2 blockSize)).drop (10 + 1)).take 8 = bufBytes dv 8
  rw [List.drop_succ_cons, List.append_assoc,
    List.drop_left' (bufBytes_length _ _),
    List.take_left' (bufBytes_length _ _)]

/-- Bytes 1..10 of a trust-key frame are the 10 uid buffer bytes. -/
theorem trustFrame_uidField (uid : Uid) (rd : List Nat) :
    ((trustFrame uid rd).drop 1).take 10 = bufBytes uid.uidByte 10 := by
  show ((uid.size :: (bufBytes uid.uidByte 10 ++ bufBytes DEVICE_ID 8 ++
    bufBytes rd TrustKeySize)).drop (0 + 1)).take 10 = bufBytes uid.uidByte 10
  rw [List.drop_succ_cons, List.drop_zero, List.append_assoc,
    List.take_left' (bufBytes_length _ _)]

/-- Bytes 11..18 of a trust-key frame are the 8 DEVICE_ID bytes. -/
theorem trustFrame_devField (uid : Uid) (rd : List Nat) :
    ((trustFrame uid rd).drop 11).take 8 = DEVICE_ID := by
  show ((uid.size :: (bufBytes uid.uidByte 10 ++ bufBytes DEVICE_ID 8 ++
    bufBytes rd TrustKeySize)).drop (10 + 1)).take 8 = DEVICE_ID
  rw [List.drop_succ_cons, List.append_assoc,
    List.drop_left' (bufBytes_length _ _),
    List.take_left' (bufBytes_length _ _)]
  exact bufBytes_DEVICE_ID

/-- C2: every frame a detection cycle writes to the serial transport is
the packaging [uidSize:1][uid buffer:10][device id:8][payload]: either a
secret-key request carrying the 16-byte block 2 data, of length exactly
35, or a trust-key validation carrying the 48-byte payload, of length
exactly 67 -- no other frame is ever sent.  Bytes 1..10 of either frame
are the 10 uid buffer bytes, which are zero past `uid.size` whenever the
buffer respects the library's zero-padding invariant. -/
theorem claimC2 (hw : HW) (torg : Bool) (s : TState) :
    (∃ t, (handleDetectedCard hw torg s).events = s.events ++ t ∧
      ∀ f, Event.serialSend f ∈ t →
        ((∃ b2, f = secretFrame s.uid
            (if torg then DEVICE_ID else List.replicate 8 0) b2 ∧
          f.length = SecretKeyAuthDataSize) ∨
         (∃ rd, f = trustFrame s.uid rd ∧ f.length = TrustKeyAuthDataSize)) ∧
        (f.drop 1).take 10 = bufBytes s.uid.uidByte 10) ∧
    (∀ i, i < 10 → s.uid.size ≤ i →
      (∀ j, s.uid.size ≤ j → s.uid.uidByte.getD j 0 = 0) →
      (bufBytes s.uid.uidByte 10).getD i 0 = 0) := by
  constructor
  · by_cases hdet : hw.cardResp s.nCard = true
    · obtain ⟨tR, tN, tW, tU, hev, hallR, htN, htWpos, htWneg, hallU⟩ :=
        handleDetectedCard_events hw torg s hdet
      have huid1 : (isNewCardDetectedOp hw s).2.uid = s.uid := rfl
      have htRsend : ∀ f, Event.serialSend f ∈ tR →
          ∃ b2, f = secretFrame s.uid (if torg then DEVICE_ID else List.replicate 8 0) b2 := by
        intro f hf
        rcases hallR _ hf with ⟨a, h⟩ | ⟨a, h⟩ | ⟨b, h⟩ | h | ⟨n, h⟩ | ⟨b2, h⟩ <;>
          first
            | (exfalso; exact Event.noConfusion h)
            | (refine ⟨b2, ?_⟩
               rw [huid1] at h
               exact Event.serialSend.inj h)
      have htNsend : ∀ f, Event.serialSend f ∈ tN →
          f = trustFrame s.uid
            (readPICC hw torg (isNewCardDetectedOp hw s).2).cardData.readData := by
        rw [htN]
        split
        · intro f hf
          simp only [List.mem_cons, List.not_mem_nil, or_false] at hf
          rcases hf with h | h | h | h <;>
            first
              | (exfalso; exact Event.noConfusion h)
              | (have hinj := Event.serialSend.inj h
                 rw [hinj, (readPICC_spec hw torg (isNewCardDetectedOp hw s).2).1, huid1])
        · intro f hf
          exact absurd hf (List.not_mem_nil _)
      have htWall : ∀ f, Event.serialSend f ∉ tW := by
        intro f hf
        by_cases hc : (readPICC hw torg (isNewCardDetectedOp hw s).2).cardData.status =
            StatusCode.STATUS_OK ∧
            (networkConn hw (readPICC hw torg (isNewCardDetectedOp hw s).2)).cardData.status =
            StatusCode.STATUS_OK
        · obtain ⟨tw, htw, hallw⟩ := htWpos hc
          rw [htw] at hf
          simp only [List.mem_cons] at hf
          rcases hf with h | h
          · exact Event.noConfusion h
          · obtain ⟨a, h2⟩ := hallw _ h
            exact Event.noConfusion h2
        · rw [htWneg hc] at hf
          exact List.not_mem_nil _ hf
      have htUall : ∀ f, Event.serialSend f ∉ tU := by
        intro f hf
        rcases hallU _ hf with ⟨a, h⟩ | ⟨a, h⟩ <;> exact Event.noConfusion h
      refine ⟨[Event.reselect true] ++ (Event.statusMsg MachineState.ReadTag :: tR) ++
        tN ++ tW ++ tU ++
        [Event.irqReset, Event.halt, Event.stopCrypto,
         Event.statusMsg MachineState.StandBy], by rw [hev]; simp [List.append_assoc], ?_⟩
      intro f hf
      simp only [List.mem_append, List.mem_cons, List.not_mem_nil, or_false,
        reduceCtorEq, false_or] at hf
      rcases hf with ((hf | hf) | hf) | hf
      · obtain ⟨b2, hb2⟩ := htRsend f hf
        subst hb2
        exact ⟨Or.inl ⟨b2, rfl, secretFrame_length _ _ _⟩, secretFrame_uidField _ _ _⟩
      · have := htNsend f hf
        subst this
        exact ⟨Or.inr ⟨_, rfl, trustFrame_length _ _⟩, trustFrame_uidField _ _⟩
      · exact absurd hf (htWall f)
      · exact absurd hf (htUall f)
    · refine ⟨[Event.reselect (hw.cardResp s.nCard), Event.statusMsg MachineState.StandBy],
        ?_, ?_⟩
      · simp only [handleDetectedCard, setStatusMsgOp]
        rw [if_neg (by simpa [isNewCardDetectedOp] using hdet)]
        simp [isNewCardDetectedOp]
      · intro f hf
        simp only [List.mem_cons, List.not_mem_nil, or_false] at hf
        rcases hf with h | h <;> exact Event.noConfusion h
  · intro i h10 hsz hpad
    rw [bufBytes_getD _ _ _ h10]
    exact hpad i hsz

/-- C10: in the standard build (IS_TRUST_ORG not defined) the device-id
field (bytes 11..18) of every 35-byte secret-key frame sent by readPICC
is all zeros, while the 67-byte trust-key frame sent by networkConn
always carries the real DEVICE_ID, and the two fields differ. -/
theorem claimC10 (hw : HW) (s : TState) :
    (∃ t, (readPICC hw false s).events =
        s.events ++ Event.statusMsg MachineState.ReadTag :: t ∧
      ∀ f, Event.serialSend f ∈ t →
        (f.drop 11).take 8 = List.replicate 8 0 ∧ f.length = SecretKeyAuthDataSize) ∧
    (∀ f, Event.serialSend f ∈ (networkConn hw s).events →
      Event.serialSend f ∈ s.events ∨
        ((f.drop 11).take 8 = DEVICE_ID ∧ f.length = TrustKeyAuthDataSize)) ∧
    List.replicate 8 0 ≠ DEVICE_ID := by
  refine ⟨?_, ?_, by decide⟩
  · obtain ⟨_, ⟨t, ht, hall⟩, _⟩ := readPICC_spec hw false s
    refine ⟨t, ht, ?_⟩
    intro f hf
    rcases hall _ hf with ⟨a, h⟩ | ⟨a, h⟩ | ⟨b, h⟩ | h | ⟨n, h⟩ | ⟨b2, h⟩ <;>
      first
        | (exfalso; exact Event.noConfusion h)
        | (have hfe := Event.serialSend.inj h
           subst hfe
           constructor
           · rw [secretFrame_devField]
             decide
           · exact secretFrame_length _ _ _)
  · intro f hf
    rw [networkConn_events] at hf
    rcases List.mem_append.mp hf with h | h
    · exact Or.inl h
    · simp only [List.mem_cons, List.not_mem_nil, or_false] at h
      rcases h with h | h | h | h <;>
        first
          | (exfalso; exact Event.noConfusion h)
          | (have hfe := Event.serialSend.inj h
             subst hfe
             exact Or.inr ⟨trustFrame_devField _ _, trustFrame_length _ _⟩)

/-- C6: the stride walk of attemptBlock2Auth visits the block 2 addresses
6, 10, ..., 62 (in steps of the 4-block sector size, bounded by block 63)
and its authentication attempts are always an initial segment of that
walk; after an authentication failure the tag is reselected before the
next stride is tried; if that reselection fails the loop returns
immediately with the failing (non-OK) status, attempting no further
address; and at the first address where the authentication and the
descriptor-block read both succeed it returns at once with STATUS_OK and
the sector's base data-block address. -/
theorem claimC6 (hw : HW) (key : List Nat) (s : TState) :
    block2AddrList = [6, 10, 14, 18, 22, 26, 30, 34, 38, 42, 46, 50, 54, 58, 62] ∧
    (∃ t, (attemptBlock2Auth hw key s).events = s.events ++ t ∧
      ∃ k, authAddrs t = block2AddrList.take k) ∧
    (∀ addr rest auth buf, hw.authResp s.nAuth ≠ StatusCode.STATUS_OK →
      hw.cardResp s.nCard = true →
      attemptBlock2AuthLoop hw key (addr :: rest) auth buf s =
        attemptBlock2AuthLoop hw key rest { auth with status := hw.authResp s.nAuth } buf
          { s with nAuth := s.nAuth + 1, nCard := s.nCard + 1,
                   events := s.events ++ [Event.auth addr, Event.reselect true] }) ∧
    (∀ addr rest auth buf, hw.authResp s.nAuth ≠ StatusCode.STATUS_OK →
      hw.cardResp s.nCard = false →
      attemptBlock2AuthLoop hw key (addr :: rest) auth buf s =
        ({ auth with status := hw.authResp s.nAuth }, buf,
         { s with nAuth := s.nAuth + 1, nCard := s.nCard + 1,
                  events := s.events ++ [Event.auth addr, Event.reselect false] })) ∧
    (∀ addr rest auth buf, hw.authResp s.nAuth = StatusCode.STATUS_OK →
      (hw.readResp s.nRead).1 = StatusCode.STATUS_OK →
      attemptBlock2AuthLoop hw key (addr :: rest) auth buf s =
        ({ auth with status := StatusCode.STATUS_OK, block0Addr := addr - 2 },
         (hw.readResp s.nRead).2,
         { s with nAuth := s.nAuth + 1, nRead := s.nRead + 1,
                  events := s.events ++ [Event.auth addr, Event.readBlock addr] })) := by
  refine ⟨by decide, ?_, ?_, ?_, ?_⟩
  · obtain ⟨_, _, _, _, t, ht, _, k, hk⟩ := attemptBlock2Auth_spec hw key s
    exact ⟨t, ht, k, hk⟩
  · intro addr rest auth buf hne hcard
    simp only [attemptBlock2AuthLoop, pcdAuthenticate, mifareRead, isNewCardDetectedOp]
    rw [if_neg hne]
    simp only [hcard, if_true]
    congr 1
    simp
  · intro addr rest auth buf hne hcard
    simp only [attemptBlock2AuthLoop, pcdAuthenticate, mifareRead, isNewCardDetectedOp]
    rw [if_neg hne]
    simp only [hcard, if_false, Bool.false_eq_true]
    congr 2
    simp
  · intro addr rest auth buf hok hrok
    simp only [attemptBlock2AuthLoop, pcdAuthenticate, mifareRead, isNewCardDetectedOp]
    rw [if_pos hok, if_pos hrok, hrok]
    congr 2
    simp

/-- Every detected cycle adds exactly one PICC_HaltA event, whatever the
stage outcomes and in either build mode. -/
theorem handleDetectedCard_countHalt (hw : HW) (torg : Bool) (s : TState)
    (hdet : hw.cardResp s.nCard = true) :
    countHalt (handleDetectedCard hw torg s).events = countHalt s.events + 1 := by
  obtain ⟨tR, tN, tW, tU, hev, hallR, htN, htWpos, htWneg, hallU⟩ :=
    handleDetectedCard_events hw torg s hdet
  have hzR : countHalt (Event.statusMsg MachineState.ReadTag :: tR) = 0 :=
    countHalt_zero (by
      intro e he
      simp only [List.mem_cons] at he
      rcases he with h | h
      · subst h; simp
      · exact readPICCEv_ne_halt (hallR e h))
  have hzN : countHalt tN = 0 := by
    rw [htN]
    split
    · exact countHalt_zero (by
        intro e he
        simp only [List.mem_cons, List.not_mem_nil, or_false] at he
        rcases he with h | h | h | h <;> subst h <;> simp)
    · rfl
  have hzW : countHalt tW = 0 := by
    by_cases hc : (readPICC hw torg (isNewCardDetectedOp hw s).2).cardData.status =
        StatusCode.STATUS_OK ∧
        (networkConn hw (readPICC hw torg (isNewCardDetectedOp hw s).2)).cardData.status =
        StatusCode.STATUS_OK
    · obtain ⟨tw, htw, hallw⟩ := htWpos hc
      rw [htw]
      exact countHalt_zero (by
        intro e he
        simp only [List.mem_cons] at he
        rcases he with h | h
        · subst h; simp
        · obtain ⟨a, h2⟩ := hallw e h; subst h2; simp)
    · rw [htWneg hc]; rfl
  have hzU : countHalt tU = 0 :=
    countHalt_zero (by
      intro e he
      rcases hallU e he with ⟨a, h⟩ | ⟨a, h⟩ <;> subst h <;> simp)
  rw [hev, countHalt_append, countHalt_append, countHalt_append, countHalt_append,
    countHalt_append, countHalt_append, hzR, hzN, hzW, hzU]
  rfl

/-- C7: in the trust-organization build, the key-upgrade sub-step runs
only for tags classified as new (otherwise it is a pure no-op returning
the error status); it never modifies `m_cardData` or `m_blockAuth` and
its only reader operations address the sector trailer, which is not one
of the three data blocks written in stage 4 -- so a failed upgrade rolls
nothing back; and the cycle's cleanup runs exactly once whether or not
the upgrade succeeds. -/
theorem claimC7 (hw : HW) (s : TState) :
    (s.blockAuth.isCardNew = false →
      setUidBasedKey hw true s = (StatusCode.STATUS_ERROR, s)) ∧
    ((setUidBasedKey hw true s).2.cardData = s.cardData ∧
     (setUidBasedKey hw true s).2.blockAuth = s.blockAuth) ∧
    (∃ t, (setUidBasedKey hw true s).2.events = s.events ++ t ∧
      ∀ e ∈ t, e = Event.auth ((s.blockAuth.block0Addr + sectorBlocks - 1) % 256) ∨
        e = Event.writeBlock ((s.blockAuth.block0Addr + sectorBlocks - 1) % 256)) ∧
    (∀ k, k < 15 → (4 * (k + 1) + sectorBlocks - 1) % 256 ∉ dataBlockAddrs (4 * (k + 1))) ∧
    (hw.cardResp s.nCard = true →
      countHalt (handleDetectedCard hw true s).events = countHalt s.events + 1) := by
  obtain ⟨h1, h2, h3, h4, t, ht, hall⟩ := setUidBasedKey_spec hw true s
  exact ⟨setUidBasedKey_notNew hw true s, ⟨h3, h2⟩, ⟨t, ht, hall⟩, by decide,
    handleDetectedCard_countHalt hw true s⟩

/-- When every authentication and block read succeeds, the stage-4 read
loop reads exactly the data-block address walk (given enough fuel for the
bounded address range). -/
theorem readLoop_allOK (hw : HW) (key : List Nat) :
    ∀ (fuel startBlock addr : Nat) (st : StatusCode) (rd : List Nat) (s : TState),
    maxBlockNo - addr ≤ fuel →
    (∀ i, hw.authResp (s.nAuth + i) = StatusCode.STATUS_OK) →
    (∀ i, (hw.readResp (s.nRead + i)).1 = StatusCode.STATUS_OK) →
    ∃ t, (readLoop hw key fuel startBlock addr st rd s).2.2.events = s.events ++ t ∧
      readAddrs t = dataBlockAddrsAux fuel startBlock addr := by
  intro fuel
  induction fuel with
  | zero =>
    intro startBlock addr st rd s hf hA hR
    exact ⟨[], by simp [readLoop], by simp [readAddrs, dataBlockAddrsAux]⟩
  | succ fuel ih =>
    intro startBlock addr st rd s hf hA hR
    simp only [readLoop, dataBlockAddrsAux, pcdAuthenticate, mifareRead]
    by_cases hg : startBlock < blocksToRead ∧ addr < maxBlockNo
    · rw [if_pos hg, if_pos hg]
      by_cases hsk : (addr + 1) % sectorBlocks = 0
      · rw [if_pos hsk, if_pos hsk]
        exact ih startBlock (addr + 1) st rd s
          (by unfold maxBlockNo at *; omega) hA hR
      · rw [if_neg hsk, if_neg hsk]
        rw [if_neg (not_not_intro (by simpa using hA 0))]
        rw [if_neg (not_not_intro (by simpa using hR 0))]
        obtain ⟨t, ht, hrt⟩ := ih (startBlock + 1) (addr + 1) ((hw.readResp s.nRead).1)
          (bufWrite rd (startBlock * blockSize) (bufBytes (hw.readResp s.nRead).2 blockSize))
          { s with nAuth := s.nAuth + 1, nRead := s.nRead + 1,
                   events := s.events ++ [Event.auth addr] ++ [Event.readBlock addr] }
          (by unfold maxBlockNo at *; omega)
          (fun i => by
            rw [show s.nAuth + 1 + i = s.nAuth + (i + 1) from by omega]
            exact hA (i + 1))
          (fun i => by
            rw [show s.nRead + 1 + i = s.nRead + (i + 1) from by omega]
            exact hR (i + 1))
        refine ⟨[Event.auth addr, Event.readBlock addr] ++ t, ?_, ?_⟩
        · rw [ht]
          simp
        · rw [readAddrs_append, hrt]
          simp [readAddrs]
    · rw [if_neg hg, if_neg hg]
      exact ⟨[], by simp, by simp [readAddrs]⟩

/-- When every block write succeeds, the write loop writes exactly the
data-block address walk. -/
theorem writeLoop_allOK (hw : HW) (rd : List Nat) :
    ∀ (fuel startBlock addr : Nat) (st : StatusCode) (s : TState),
    maxBlockNo - addr ≤ fuel →
    (∀ i, hw.writeResp (s.nWrite + i) = StatusCode.STATUS_OK) →
    ∃ t, (writeLoop hw rd fuel startBlock addr st s).2.events = s.events ++ t ∧
      writeAddrs t = dataBlockAddrsAux fuel startBlock addr := by
  intro fuel
  induction fuel with
  | zero =>
    intro startBlock addr st s hf hW
    exact ⟨[], by simp [writeLoop], by simp [writeAddrs, dataBlockAddrsAux]⟩
  | succ fuel ih =>
    intro startBlock addr st s hf hW
    simp only [writeLoop, dataBlockAddrsAux, mifareWrite]
    by_cases hg : startBlock < blocksToRead ∧ addr < maxBlockNo
    · rw [if_pos hg, if_pos hg]
      by_cases hsk : (addr + 1) % sectorBlocks = 0
      · rw [if_pos hsk, if_pos hsk]
        exact ih startBlock (addr + 1) st s (by unfold maxBlockNo at *; omega) hW
      · rw [if_neg hsk, if_neg hsk]
        rw [if_neg (not_not_intro (by simpa using hW 0))]
        obtain ⟨t, ht, hwt⟩ := ih (startBlock + 1) (addr + 1) (hw.writeResp s.nWrite)
          { s with nWrite := s.nWrite + 1, events := s.events ++ [Event.writeBlock addr] }
          (by unfold maxBlockNo at *; omega)
          (fun i => by
            rw [show s.nWrite + 1 + i = s.nWrite + (i + 1) from by omega]
            exact hW (i + 1))
        refine ⟨[Event.writeBlock addr] ++ t, ?_, ?_⟩
        · rw [ht]
          simp
        · rw [writeAddrs_append, hwt]
          simp [writeAddrs]
    · rw [if_neg hg, if_neg hg]
      exact ⟨[], by simp, by simp [writeAddrs]⟩

/-- C8: one sector end to end.  For every sector base address the stage-1
authentication can fix (block0Addr = 4, 8, ..., 60), the data-block walk
is exactly the three data blocks of that sector; the stage-4 read loop
and the write loop each touch only addresses on that walk, always as an
initial segment of it; when all reads succeed the addresses read are
exactly the walk, and when all writes succeed the addresses written are
exactly the same walk; and writePICC performs its writes on the walk
starting from `m_blockAuth.block0Addr` fixed by stage 1. -/
theorem claimC8 (hw : HW) (key rd : List Nat) (st : StatusCode) (s : TState) :
    (∀ k, k < 15 → dataBlockAddrs (4 * (k + 1)) =
      [4 * (k + 1), 4 * (k + 1) + 1, 4 * (k + 1) + 2]) ∧
    (∀ fuel startBlock addr,
      ∃ t, (readLoop hw key fuel startBlock addr st rd s).2.2.events = s.events ++ t ∧
        (∀ e ∈ t, ∃ a, a ∈ dataBlockAddrsAux fuel startBlock addr ∧
          (e = Event.auth a ∨ e = Event.readBlock a)) ∧
        ∃ j, readAddrs t = (dataBlockAddrsAux fuel startBlock addr).take j) ∧
    (∀ fuel startBlock addr,
      ∃ t, (writeLoop hw rd fuel startBlock addr st s).2.events = s.events ++ t ∧
        (∀ e ∈ t, ∃ a, a ∈ dataBlockAddrsAux fuel startBlock addr ∧
          e = Event.writeBlock a) ∧
        ∃ j, writeAddrs t = (dataBlockAddrsAux fuel startBlock addr).take j) ∧
    ((∀ i, hw.authResp (s.nAuth + i) = StatusCode.STATUS_OK) →
     (∀ i, (hw.readResp (s.nRead + i)).1 = StatusCode.STATUS_OK) →
     ∀ b, ∃ t, (readLoop hw key 64 0 b st rd s).2.2.events = s.events ++ t ∧
        readAddrs t = dataBlockAddrs b) ∧
    ((∀ i, hw.writeResp (s.nWrite + i) = StatusCode.STATUS_OK) →
     ∀ b, ∃ t, (writeLoop hw rd 64 0 b st s).2.events = s.events ++ t ∧
        writeAddrs t = dataBlockAddrs b) ∧
    (∃ t, (writePICC hw s).events =
        s.events ++ Event.statusMsg MachineState.WriteTag :: t ∧
      ∃ j, writeAddrs t = (dataBlockAddrs s.blockAuth.block0Addr).take j) := by
  refine ⟨by decide, ?_, ?_, ?_, ?_, ?_⟩
  · intro fuel startBlock addr
    obtain ⟨_, _, _, _, _, t, ht, hall, j, hj⟩ := readLoop_spec hw key fuel startBlock addr st rd s
    exact ⟨t, ht, hall, j, hj⟩
  · intro fuel startBlock addr
    obtain ⟨_, _, _, _, _, t, ht, hall, j, hj⟩ := writeLoop_spec hw rd fuel startBlock addr st s
    exact ⟨t, ht, hall, j, hj⟩
  · intro hA hR b
    exact readLoop_allOK hw key 64 0 b st rd s (by unfold maxBlockNo; omega) hA hR
  · intro hW b
    exact writeLoop_allOK hw rd 64 0 b st s (by unfold maxBlockNo; omega) hW
  · obtain ⟨_, _, _, _, _, t, ht, _, j, hj⟩ := writePICC_spec hw s
    exact ⟨t, ht, j, hj⟩
